import Mathlib

/-!
# Verification of the lpseal stage poller and the spread window assigner

This file gives a shallow embedding of two components of the repository:

* `provider/lpseal/poller.go` — the sector-sealing pipeline poller
  (`poll` and its per-stage claim / landing-check helpers), modelled over an
  explicit list of `sectors_sdr_pipeline` rows.  SQL conditional updates
  become `condUpdate` (a pointwise map plus a count of matching rows), the
  task-registration transaction becomes `runClaimTx` (commit on
  `shouldCommit = true` and no error, rollback otherwise), and the external
  chain / message-wait query surface becomes the pure environment
  `ChainEnv`.  The deferred-registration promises become the Boolean
  `IsSet` flags of `Pollers`; calling `Val` on a promise that is not set
  blocks the tick, which the embedding represents by returning `none`.

* `SpreadWS` (the spread window-selection pass of the scheduler assigner),
  modelled over a task queue, an acceptable-window table, and a list of
  windows.  The externally supplied resource admission test
  (`ActiveResources.CanHandleRequest`) and per-worker resource table
  (`WorkerResources.ResourceSpec`) are opaque parameters of `SchedModel`;
  worker infos, resource specs and allocations are opaque tokens (`Nat`).

Machine integers (`int64`, `abi.ChainEpoch`) are modelled as `Int`; the
counters involved are bounded far below overflow in the source, so plain
integer arithmetic is the faithful model.  `math.MaxInt` (the initial
best-assigned sentinel, never attained by a real count) is modelled as
`Option Nat` with `none` for the sentinel.
-/

/-- One row of the `message_waits` join used by the landing checks
(the poller only reads the fields below from `execResult[0]`). -/
structure ExecResult where
  executedTskCid : String
  executedTskEpoch : Int
  executedMsgCid : String
deriving DecidableEq, Repr

/-- A row of `sectors_sdr_pipeline`, with the columns read by `poll`
(the `pollTask` struct) plus the columns written by the landing checks
(`precommit_msg_tsk`, `commit_msg_tsk`). -/
structure Row where
  spId : Int
  sectorNumber : Int
  taskSdr : Option Int
  afterSdr : Bool
  taskTreeD : Option Int
  afterTreeD : Bool
  taskTreeC : Option Int
  afterTreeC : Bool
  taskTreeR : Option Int
  afterTreeR : Bool
  taskPrecommitMsg : Option Int
  afterPrecommitMsg : Bool
  afterPrecommitMsgSuccess : Bool
  seedEpoch : Option Int
  taskPorep : Option Int
  porepProof : List Nat
  afterPorep : Bool
  taskCommitMsg : Option Int
  afterCommitMsg : Bool
  afterCommitMsgSuccess : Bool
  failed : Bool
  failedReason : String
  precommitMsgTsk : Option String
  commitMsgTsk : Option String
deriving DecidableEq, Repr

/-- The external query surface of one tick: current chain head height, the
network precommit challenge delay, the `message_waits` join for the two
submitted messages, and the two authoritative chain-state queries.  All
reads are pure: the chain and the externally owned tables do not change
during the runs under consideration. -/
structure ChainEnv where
  chainHeight : Int
  preCommitChallengeDelay : Int
  precommitMsgWait : Int → Int → Option ExecResult
  commitMsgWait : Int → Int → Option ExecResult
  statePreCommitInfo : Int → Int → Option Int
  stateSectorInfoPresent : Int → Int → Bool

/-- The `IsSet` state of the five deferred-registration promises
(`SealPoller.pollers`). -/
structure Pollers where
  sdr : Bool
  trees : Bool
  precommitMsg : Bool
  porep : Bool
  commitMsg : Bool
deriving DecidableEq, Repr

/-- The five pipeline stages that perform claims. -/
inductive Stage where
  | sdr
  | trees
  | precommitMsg
  | porep
  | commitMsg
deriving DecidableEq, Repr

/-- One task-registration attempt: the stage, the record key, the freshly
minted task id, and whether the conditional update committed. -/
structure Attempt where
  stage : Stage
  spId : Int
  sectorNumber : Int
  id : Int
  committed : Bool
deriving DecidableEq, Repr

/-- The observable state threaded through one tick: the pipeline table, a
fresh-id counter for newly minted task ids, the claim attempts made, the
errors surfaced (returned or logged through `mustPoll`), and the number of
`ChainHead` reads issued. -/
structure PollSt where
  db : List Row
  nextId : Int
  attempts : List Attempt
  errors : List String
  chainReads : Nat
deriving DecidableEq, Repr

/-- `seedEpochConfidence` from `poller.go`. -/
def seedEpochConfidence : Int := 3

/-- The `WHERE sp_id = $ .. AND sector_number = $ ..` part shared by every
conditional update. -/
def keyMatch (sp sn : Int) (r : Row) : Bool :=
  r.spId == sp && r.sectorNumber == sn

/-- A SQL `UPDATE .. WHERE c`: map the update over the matching rows and
report the number of rows affected. -/
def condUpdate (c : Row → Bool) (f : Row → Row) (db : List Row) :
    List Row × Nat :=
  (db.map fun r => if c r then f r else r, db.countP c)

/-- The conditional update inside `pollStartSDR`'s claim closure:
`SET task_id_sdr = id WHERE key AND task_id_sdr IS NULL`; returns the
updated table, `shouldCommit`, and the serious error, mirroring the Go
closure's `(bool, error)` result. -/
def sdrClaimUpdate (sp sn id : Int) (db : List Row) :
    List Row × Bool × Option String :=
  let u := condUpdate (fun r => keyMatch sp sn r && r.taskSdr.isNone)
    (fun r => { r with taskSdr := some id }) db
  if u.2 != 1 then (u.1, false, some "expected to update 1 row")
  else (u.1, true, none)

/-- The conditional update inside `pollStartSDRTrees`'s claim closure:
one id written into all three tree columns, guarded by `after_sdr = true`
and all three columns being null. -/
def treesClaimUpdate (sp sn id : Int) (db : List Row) :
    List Row × Bool × Option String :=
  let u := condUpdate
    (fun r => keyMatch sp sn r && r.afterSdr && r.taskTreeD.isNone &&
      r.taskTreeC.isNone && r.taskTreeR.isNone)
    (fun r => { r with taskTreeD := some id, taskTreeC := some id,
                       taskTreeR := some id }) db
  if u.2 != 1 then (u.1, false, some "expected to update 1 row")
  else (u.1, true, none)

/-- The conditional update inside `pollStartPrecommitMsg`'s claim closure. -/
def precommitMsgClaimUpdate (sp sn id : Int) (db : List Row) :
    List Row × Bool × Option String :=
  let u := condUpdate
    (fun r => keyMatch sp sn r && r.taskPrecommitMsg.isNone &&
      r.afterTreeR && r.afterTreeD)
    (fun r => { r with taskPrecommitMsg := some id }) db
  if u.2 != 1 then (u.1, false, some "expected to update 1 row")
  else (u.1, true, none)

/-- The conditional update inside `pollStartPoRep`'s claim closure. -/
def porepClaimUpdate (sp sn id : Int) (db : List Row) :
    List Row × Bool × Option String :=
  let u := condUpdate (fun r => keyMatch sp sn r && r.taskPorep.isNone)
    (fun r => { r with taskPorep := some id }) db
  if u.2 != 1 then (u.1, false, some "expected to update 1 row")
  else (u.1, true, none)

/-- The conditional update inside `pollStartCommitMsg`'s claim closure. -/
def commitMsgClaimUpdate (sp sn id : Int) (db : List Row) :
    List Row × Bool × Option String :=
  let u := condUpdate (fun r => keyMatch sp sn r && r.taskCommitMsg.isNone)
    (fun r => { r with taskCommitMsg := some id }) db
  if u.2 != 1 then (u.1, false, some "expected to update 1 row")
  else (u.1, true, none)

/-- Modelled from the spec: the deferred task-registration transaction of
the Task Execution Service (`promise.Promise[harmonytask.AddTaskFunc]`,
whose implementation is outside `src/`).  Per §6 of the spec, the service
mints a fresh task id, runs the claim function in a transaction, and rolls
the registration back (persisting nothing) if `shouldCommit` is false or
an error occurred. -/
def runClaimTx (g : Stage) (sp sn : Int)
    (fn : Int → List Row → List Row × Bool × Option String)
    (st : PollSt) : PollSt :=
  let id := st.nextId
  let r := fn id st.db
  let committed := r.2.1 && r.2.2.isNone
  { st with
    db := if committed then r.1 else st.db
    nextId := st.nextId + 1
    attempts := st.attempts ++ [⟨g, sp, sn, id, committed⟩]
    errors := st.errors ++ (match r.2.2 with | some e => [e] | none => []) }

/-- `pollStartSDR`: claim the SDR stage when no SDR task is set and the SDR
promise is set. -/
def pollStartSDR (ps : Pollers) (task : Row) (st : PollSt) : PollSt :=
  if task.taskSdr.isNone && ps.sdr then
    runClaimTx .sdr task.spId task.sectorNumber
      (sdrClaimUpdate task.spId task.sectorNumber) st
  else st

/-- `pollStartSDRTrees`: claim the tree group as a single registration. -/
def pollStartSDRTrees (ps : Pollers) (task : Row) (st : PollSt) : PollSt :=
  if task.taskTreeD.isNone && task.taskTreeC.isNone && task.taskTreeR.isNone
      && ps.trees && task.afterSdr then
    runClaimTx .trees task.spId task.sectorNumber
      (treesClaimUpdate task.spId task.sectorNumber) st
  else st

/-- `pollStartPrecommitMsg`: the guard checks only the record predicate and
then calls `Val` on the precommit-message promise with no `IsSet` check; if
that promise is not set, `Val` blocks the tick, which the model represents
by `none`. -/
def pollStartPrecommitMsg (ps : Pollers) (task : Row) (st : PollSt) :
    Option PollSt :=
  if task.taskPrecommitMsg.isNone && task.afterTreeR && task.afterTreeD then
    if ps.precommitMsg then
      some (runClaimTx .precommitMsg task.spId task.sectorNumber
        (precommitMsgClaimUpdate task.spId task.sectorNumber) st)
    else none
  else some st

/-- `pollPrecommitMsgLanded`: when the precommit message is claimed but its
landing is not yet confirmed, query the `message_waits` join; on a confirmed
execution, fetch the on-chain precommit info; when present, persist
`seed_epoch = PreCommitEpoch + GetPreCommitChallengeDelay()` together with
`precommit_msg_tsk` and `after_precommit_msg_success = true`, conditioned on
`seed_epoch IS NULL` (the affected-row count is ignored).  The
`NewIDAddress` conversion fails exactly on negative provider ids. -/
def pollPrecommitMsgLanded (env : ChainEnv) (task : Row) (st : PollSt) :
    PollSt × Option String :=
  if task.taskPrecommitMsg.isSome && !task.afterPrecommitMsgSuccess then
    match env.precommitMsgWait task.spId task.sectorNumber with
    | none => (st, none)
    | some ex =>
      if task.spId < 0 then (st, some "invalid actor id") else
      match env.statePreCommitInfo task.spId task.sectorNumber with
      | none => (st, none)
      | some preCommitEpoch =>
        let randHeight := preCommitEpoch + env.preCommitChallengeDelay
        let u := condUpdate
          (fun r => keyMatch task.spId task.sectorNumber r &&
            r.seedEpoch.isNone)
          (fun r => { r with seedEpoch := some randHeight,
                             precommitMsgTsk := some ex.executedTskCid,
                             afterPrecommitMsgSuccess := true }) st.db
        ({ st with db := u.1 }, none)
  else (st, none)

/-- `pollStartPoRep`: claim the PoRep stage when the PoRep promise is set,
message-A landing succeeded, a seed epoch is recorded, no PoRep task is set,
and the observed chain height has reached
`seed_epoch + seedEpochConfidence`. -/
def pollStartPoRep (env : ChainEnv) (ps : Pollers) (task : Row)
    (st : PollSt) : PollSt :=
  if ps.porep && task.afterPrecommitMsgSuccess && task.seedEpoch.isSome
      && task.taskPorep.isNone
      && decide (task.seedEpoch.getD 0 + seedEpochConfidence ≤
        env.chainHeight) then
    runClaimTx .porep task.spId task.sectorNumber
      (porepClaimUpdate task.spId task.sectorNumber) st
  else st

/-- `pollStartCommitMsg`: claim the commit-message stage when the PoRep
stage completed with a non-empty proof, no commit-message task is set, and
the commit-message promise is set. -/
def pollStartCommitMsg (ps : Pollers) (task : Row) (st : PollSt) : PollSt :=
  if task.afterPorep && decide (0 < task.porepProof.length)
      && task.taskCommitMsg.isNone && ps.commitMsg then
    runClaimTx .commitMsg task.spId task.sectorNumber
      (commitMsgClaimUpdate task.spId task.sectorNumber) st
  else st

/-- `pollCommitMsgLanded`: guarded by `after_commit_msg` (stage-5 task
completed, not merely claimed), landing not yet confirmed, and the
commit-message promise being set.  On a confirmed execution, fetch the
final on-chain sector state; when absent, only log (no update, no returned
error); when present, set `after_commit_msg_success = true` and
`commit_msg_tsk`, conditioned on `after_commit_msg_success = false`. -/
def pollCommitMsgLanded (env : ChainEnv) (ps : Pollers) (task : Row)
    (st : PollSt) : PollSt × Option String :=
  if task.afterCommitMsg && !task.afterCommitMsgSuccess && ps.commitMsg then
    match env.commitMsgWait task.spId task.sectorNumber with
    | none => (st, none)
    | some ex =>
      if task.spId < 0 then (st, some "invalid actor id") else
      if env.stateSectorInfoPresent task.spId task.sectorNumber then
        let u := condUpdate
          (fun r => keyMatch task.spId task.sectorNumber r &&
            r.afterCommitMsgSuccess == false)
          (fun r => { r with afterCommitMsgSuccess := true,
                             commitMsgTsk := some ex.executedTskCid }) st.db
        ({ st with db := u.1 }, none)
      else (st, none)
  else (st, none)

/-- `mustPoll`: log the landing-check error (collect it) and continue. -/
def mustPoll (p : PollSt × Option String) : PollSt :=
  match p.2 with
  | some e => { p.1 with errors := p.1.errors ++ [e] }
  | none => p.1

/-- The processing of one non-failed record within a tick: read the chain
head, then evaluate the seven per-stage checks in their fixed order.  The
result is `none` when the tick blocks inside `pollStartPrecommitMsg`. -/
def pollOneTask (env : ChainEnv) (ps : Pollers) (task : Row) (st : PollSt) :
    Option PollSt :=
  let st1 := { st with chainReads := st.chainReads + 1 }
  let st2 := pollStartSDR ps task st1
  let st3 := pollStartSDRTrees ps task st2
  match pollStartPrecommitMsg ps task st3 with
  | none => none
  | some st4 =>
    let st5 := mustPoll (pollPrecommitMsgLanded env task st4)
    let st6 := pollStartPoRep env ps task st5
    let st7 := pollStartCommitMsg ps task st6
    some (mustPoll (pollCommitMsgLanded env ps task st7))

/-- The body of `poll`'s record loop: skip failed records, process the
rest in order, aborting (blocking) when a record's processing blocks. -/
def pollTasksLoop (env : ChainEnv) (ps : Pollers) :
    List Row → PollSt → Option PollSt
  | [], st => some st
  | task :: rest, st =>
    if task.failed then pollTasksLoop env ps rest st
    else
      match pollOneTask env ps task st with
      | none => none
      | some st8 => pollTasksLoop env ps rest st8

/-- `poll`: load every record whose terminal-success flag is not `true`
(the `SELECT .. WHERE after_commit_msg_success != true` snapshot), then run
the record loop.  `none` means the tick blocked and never returned. -/
def poll (env : ChainEnv) (ps : Pollers) (db : List Row) : Option PollSt :=
  pollTasksLoop env ps (db.filter fun r => r.afterCommitMsgSuccess != true)
    ⟨db, 0, [], [], 0⟩

/-!
## The spread window assigner (`SpreadWS`)

`SpreadWS(sh, queueLen, acceptableWindows, windows)` iterates the scheduler
queue in order; for each task it scans the task's acceptable windows,
keeping the first candidate that passes the admission test and strictly
improves on the best per-pass worker-assignment count seen so far.  The
queue is modelled as the list it indexes (`queueLen = queue.length`), the
`OpenWindows` / `Workers` lookups and the two external resource functions
are the opaque `SchedModel`, and worker ids / infos / resource specs /
allocations are opaque `Nat` tokens (`0` is the zero `WorkerInfo` value of
the uninitialized `var info` declaration).
-/

/-- A queue entry (`*WorkerRequest`): its heap index (the key into
`acceptableWindows`), the sector's proof type and the task type. -/
structure WorkerRequest where
  indexHeap : Nat
  proofType : Nat
  taskType : Nat
deriving DecidableEq, Repr

/-- A `SchedWindow`: its current external allocation (an opaque token read
by the admission test; `SpreadWS` never changes it) and its pending list. -/
structure SchedWindow where
  allocated : Nat
  todo : List WorkerRequest
deriving DecidableEq, Repr

instance : Inhabited SchedWindow := ⟨⟨0, []⟩⟩

/-- The scheduler context and the two external resource functions:
`openWindowWorker wnd` is `sh.OpenWindows[wnd].Worker`, `workerInfo wid` is
`sh.Workers[wid].Info`, `resourceSpec info pt tt` is
`info.Resources.ResourceSpec(pt, tt)`, and
`canHandleRequest alloc res wid caller info` is
`alloc.CanHandleRequest(res, wid, caller, info)`. -/
structure SchedModel where
  openWindowWorker : Nat → Nat
  workerInfo : Nat → Nat
  resourceSpec : Nat → Nat → Nat → Nat
  canHandleRequest : Nat → Nat → Nat → String → Nat → Bool

/-- The per-task scan state: `selectedWindow = none` is the `-1` sentinel,
`info` starts as the zero `WorkerInfo`, and `bestAssigned = none` is the
`math.MaxInt` sentinel (never reached by a real in-pass count). -/
structure ScanState where
  selectedWindow : Option Nat
  info : Nat
  bestWid : Nat
  bestAssigned : Option Nat
deriving DecidableEq, Repr

/-- The initial scan state of each task. -/
def spreadScanInit : ScanState := ⟨none, 0, 0, none⟩

/-- `wu >= bestAssigned` with the `math.MaxInt` sentinel. -/
def geBest (best : Option Nat) (wu : Nat) : Bool :=
  match best with
  | none => false
  | some b => b ≤ wu

/-- The admission check of one candidate window, exactly as the source
evaluates it: the resource spec and the worker-info argument both come from
the scan state's `info` variable (zero-valued until a candidate has been
selected), not from the candidate's own worker. -/
def spreadCheck (m : SchedModel) (windows : List SchedWindow)
    (task : WorkerRequest) (st : ScanState) (wnd : Nat) : Bool :=
  m.canHandleRequest (windows.getD wnd default).allocated
    (m.resourceSpec st.info task.proofType task.taskType)
    (m.openWindowWorker wnd) "schedAssign" st.info

/-- One iteration of the candidate-window scan. -/
def spreadScanStep (m : SchedModel) (windows : List SchedWindow)
    (assigned : Nat → Nat) (task : WorkerRequest) (st : ScanState)
    (wnd : Nat) : ScanState :=
  let wid := m.openWindowWorker wnd
  if !spreadCheck m windows task st wnd then st
  else
    let wu := assigned wid
    if geBest st.bestAssigned wu then st
    else ⟨some wnd, m.workerInfo wid, wid, some wu⟩

/-- The scan over one task's acceptable windows. -/
def spreadScan (m : SchedModel) (windows : List SchedWindow)
    (assigned : Nat → Nat) (task : WorkerRequest) (cs : List Nat) :
    ScanState :=
  cs.foldl (spreadScanStep m windows assigned task) spreadScanInit

/-- The candidates that pass the admission check during the scan, in scan
order (an observer of the same state threading as `spreadScan`). -/
def spreadScanPassed (m : SchedModel) (windows : List SchedWindow)
    (assigned : Nat → Nat) (task : WorkerRequest) :
    ScanState → List Nat → List Nat
  | _, [] => []
  | st, wnd :: rest =>
    if spreadCheck m windows task st wnd then
      wnd :: spreadScanPassed m windows assigned task
        (spreadScanStep m windows assigned task st wnd) rest
    else
      spreadScanPassed m windows assigned task
        (spreadScanStep m windows assigned task st wnd) rest

/-- The state of one assignment pass: the windows (pending lists grow), the
per-pass worker-assignment counts (`workerAssigned`, zero by default), the
queue positions marked for removal, and the placement count. -/
structure SpreadPassState where
  windows : List SchedWindow
  workerAssigned : Nat → Nat
  rmQueue : List Nat
  scheduled : Nat

/-- The body of the queue loop for the task at queue position `sqi`. -/
def spreadAssignOne (m : SchedModel) (acceptable : Nat → List Nat)
    (sqi : Nat) (task : WorkerRequest) (st : SpreadPassState) :
    SpreadPassState :=
  let sc := spreadScan m st.windows st.workerAssigned task
    (acceptable task.indexHeap)
  match sc.selectedWindow with
  | none => st
  | some wnd =>
    { windows := st.windows.set wnd
        (let w := st.windows.getD wnd default
         { w with todo := w.todo ++ [task] })
      workerAssigned := fun w =>
        if w == sc.bestWid then st.workerAssigned w + 1
        else st.workerAssigned w
      rmQueue := st.rmQueue ++ [sqi]
      scheduled := st.scheduled + 1 }

/-- The queue loop of `SpreadWS`. -/
def spreadGo (m : SchedModel) (acceptable : Nat → List Nat) :
    List WorkerRequest → Nat → SpreadPassState → SpreadPassState
  | [], _, st => st
  | task :: rest, sqi, st =>
    spreadGo m acceptable rest (sqi + 1) (spreadAssignOne m acceptable sqi task st)

/-- `SpreadWS`: run the pass over the whole queue, then remove the marked
positions from the queue back-to-front (`SchedQueue.Remove`, modelled from
the spec's removable-by-index queue as `eraseIdx`).  Returns the mutated
queue and windows together with the placement count. -/
def SpreadWS (m : SchedModel) (schedQueue : List WorkerRequest)
    (acceptable : Nat → List Nat) (windows : List SchedWindow) :
    List WorkerRequest × List SchedWindow × Nat :=
  let st := spreadGo m acceptable schedQueue 0 ⟨windows, fun _ => 0, [], 0⟩
  let queue := if 0 < st.rmQueue.length then
      st.rmQueue.reverse.foldl (fun q i => q.eraseIdx i) schedQueue
    else schedQueue
  (queue, st.windows, st.scheduled)

/-- The placements of one pass (an observer mirroring `spreadGo` exactly):
for every placed task its queue position, the chosen window, and the worker
whose in-pass count it incremented. -/
structure Placement where
  sqi : Nat
  task : WorkerRequest
  window : Nat
  worker : Nat
deriving DecidableEq, Repr

/-- The placement trace of the queue loop. -/
def spreadPlacements (m : SchedModel) (acceptable : Nat → List Nat) :
    List WorkerRequest → Nat → SpreadPassState → List Placement
  | [], _, _ => []
  | task :: rest, sqi, st =>
    let sc := spreadScan m st.windows st.workerAssigned task
      (acceptable task.indexHeap)
    match sc.selectedWindow with
    | none => spreadPlacements m acceptable rest (sqi + 1) st
    | some wnd =>
      ⟨sqi, task, wnd, sc.bestWid⟩ ::
        spreadPlacements m acceptable rest (sqi + 1)
          (spreadAssignOne m acceptable sqi task st)

/-- Walk a list with its positions, dropping exactly the marked positions
and keeping the rest in order (the intended effect of the back-to-front
`Remove` loop). -/
def removeMarked : List WorkerRequest → Nat → List Nat → List WorkerRequest
  | [], _, _ => []
  | a :: as, k, idxs =>
    if k ∈ idxs then removeMarked as (k + 1) idxs
    else a :: removeMarked as (k + 1) idxs

/-!
## Stage-generic view of the five claim updates

The five claim closures share one shape: a conditional update guarded by
the record key, the stage's task-id column(s) being null, and the stage's
SQL preconditions.  The functions below name that shape; each agrees with
the corresponding per-stage definition by computation.
-/

/-- The full SQL `WHERE` clause of each stage's claim update. -/
def stageCond : Stage → Int → Int → Row → Bool
  | .sdr, sp, sn, r => keyMatch sp sn r && r.taskSdr.isNone
  | .trees, sp, sn, r => keyMatch sp sn r && r.afterSdr &&
      r.taskTreeD.isNone && r.taskTreeC.isNone && r.taskTreeR.isNone
  | .precommitMsg, sp, sn, r => keyMatch sp sn r &&
      r.taskPrecommitMsg.isNone && r.afterTreeR && r.afterTreeD
  | .porep, sp, sn, r => keyMatch sp sn r && r.taskPorep.isNone
  | .commitMsg, sp, sn, r => keyMatch sp sn r && r.taskCommitMsg.isNone

/-- The `SET` clause of each stage's claim update. -/
def stageSet : Stage → Int → Row → Row
  | .sdr, id, r => { r with taskSdr := some id }
  | .trees, id, r =>
      { r with taskTreeD := some id, taskTreeC := some id,
               taskTreeR := some id }
  | .precommitMsg, id, r => { r with taskPrecommitMsg := some id }
  | .porep, id, r => { r with taskPorep := some id }
  | .commitMsg, id, r => { r with taskCommitMsg := some id }

/-- The stage's task-id column(s) are currently unset. -/
def stageFree : Stage → Row → Bool
  | .sdr, r => r.taskSdr.isNone
  | .trees, r => r.taskTreeD.isNone && r.taskTreeC.isNone && r.taskTreeR.isNone
  | .precommitMsg, r => r.taskPrecommitMsg.isNone
  | .porep, r => r.taskPorep.isNone
  | .commitMsg, r => r.taskCommitMsg.isNone

/-- The claim update of each stage. -/
def stageClaimUpdate : Stage → Int → Int → Int → List Row →
    List Row × Bool × Option String
  | .sdr => sdrClaimUpdate
  | .trees => treesClaimUpdate
  | .precommitMsg => precommitMsgClaimUpdate
  | .porep => porepClaimUpdate
  | .commitMsg => commitMsgClaimUpdate

/-- A row used by the concrete claim instances below. -/
def c1Row : Row :=
  { spId := 1, sectorNumber := 2, taskSdr := none, afterSdr := false,
    taskTreeD := none, afterTreeD := false, taskTreeC := none,
    afterTreeC := false, taskTreeR := none, afterTreeR := false,
    taskPrecommitMsg := none, afterPrecommitMsg := false,
    afterPrecommitMsgSuccess := false, seedEpoch := none, taskPorep := none,
    porepProof := [], afterPorep := false, taskCommitMsg := none,
    afterCommitMsg := false, afterCommitMsgSuccess := false, failed := false,
    failedReason := "", precommitMsgTsk := none, commitMsgTsk := none }

/-!
## Further definitions used by the theorems: the spec-side admission check,
pointwise relations on tables, and concrete instances
-/

/-- The admission check as §4.2 of the spec words it: the candidate window
is rejected exactly when its admission test cannot accommodate the task's
resource request, *the request being derived from the candidate worker's
own resource information* for the task's proof type and task type.
Compare `spreadCheck`, which derives the request (and the worker-info
argument of the admission test) from the scan state's `info` variable. -/
def specCandidateCheck (m : SchedModel) (windows : List SchedWindow)
    (task : WorkerRequest) (wnd : Nat) : Bool :=
  m.canHandleRequest (windows.getD wnd default).allocated
    (m.resourceSpec (m.workerInfo (m.openWindowWorker wnd))
      task.proofType task.taskType)
    (m.openWindowWorker wnd) "schedAssign"
    (m.workerInfo (m.openWindowWorker wnd))

/-- The in-pass assignment count of the worker owning a window. -/
def wuOf (m : SchedModel) (assigned : Nat → Nat) (wnd : Nat) : Nat :=
  assigned (m.openWindowWorker wnd)

/-- Position-wise preservation of an already-recorded seed epoch between
two tables. -/
def SeedKept (a b : List Row) : Prop :=
  ∀ i r v, a.get? i = some r → r.seedEpoch = some v →
    ∃ r', b.get? i = some r' ∧ r'.seedEpoch = some v

/-- The number of rows carrying a given record key. -/
def keyCount (sp sn : Int) (db : List Row) : Nat :=
  db.countP (keyMatch sp sn)

/-- Every row of `db` carrying `t`'s key is `t` itself. -/
def OnlyRow (db : List Row) (t : Row) : Prop :=
  ∀ r ∈ db, keyMatch t.spId t.sectorNumber r = true → r = t

/-- A record mid-pipeline: precommit message claimed and landed on chain
but not yet processed by the poller (seed epoch still null). -/
def c2Row : Row :=
  { spId := 0, sectorNumber := 0, taskSdr := some 1, afterSdr := false,
    taskTreeD := none, afterTreeD := false, taskTreeC := none,
    afterTreeC := false, taskTreeR := none, afterTreeR := false,
    taskPrecommitMsg := some 2, afterPrecommitMsg := false,
    afterPrecommitMsgSuccess := false, seedEpoch := none, taskPorep := none,
    porepProof := [], afterPorep := false, taskCommitMsg := none,
    afterCommitMsg := false, afterCommitMsgSuccess := false, failed := false,
    failedReason := "", precommitMsgTsk := none, commitMsgTsk := none }

/-- An environment in which `c2Row`'s precommit message has executed, its
on-chain precommit info exists, and the chain is far past the seed epoch. -/
def c2Env : ChainEnv :=
  { chainHeight := 100, preCommitChallengeDelay := 10,
    precommitMsgWait := fun _ _ => some ⟨"ptsk", 5, "pmsg"⟩,
    commitMsgWait := fun _ _ => none,
    statePreCommitInfo := fun _ _ => some 20,
    stateSectorInfoPresent := fun _ _ => true }

/-- All five registration handles set. -/
def c2Ps : Pollers := ⟨true, true, true, true, true⟩

/-- A record whose seed epoch is recorded but whose confirmation margin is
not yet reached at height 12. -/
def c3Task : Row :=
  { c2Row with taskPrecommitMsg := some 2, afterPrecommitMsgSuccess := true,
               seedEpoch := some 10 }

/-- Chain at height 12: below seed epoch 10 + confidence 3. -/
def c3Env : ChainEnv :=
  { c2Env with chainHeight := 12 }

/-- A starting tick state over the single record `c3Task`. -/
def c3St : PollSt := ⟨[c3Task], 0, [], [], 0⟩

/-- A record simultaneously ready (up to promise availability) for every
stage's claim. -/
def c4Task : Row :=
  { spId := 0, sectorNumber := 0, taskSdr := none, afterSdr := true,
    taskTreeD := none, afterTreeD := true, taskTreeC := none,
    afterTreeC := true, taskTreeR := none, afterTreeR := true,
    taskPrecommitMsg := none, afterPrecommitMsg := false,
    afterPrecommitMsgSuccess := true, seedEpoch := some 0,
    taskPorep := none, porepProof := [1], afterPorep := true,
    taskCommitMsg := none, afterCommitMsg := false,
    afterCommitMsgSuccess := false, failed := false, failedReason := "",
    precommitMsgTsk := none, commitMsgTsk := none }

/-- No registration handle has been supplied yet for any stage. -/
def c4Ps : Pollers := ⟨false, false, false, false, false⟩

/-- A starting tick state over the single record `c4Task`. -/
def c4St : PollSt := ⟨[c4Task], 0, [], [], 0⟩

/-- Two fresh records with distinct keys and nothing claimed. -/
def c5RowA : Row :=
  { c2Row with taskSdr := none, taskPrecommitMsg := none }

/-- The second fresh record. -/
def c5RowB : Row :=
  { c5RowA with sectorNumber := 1 }

/-- A quiet environment: no message has executed. -/
def c5Env : ChainEnv :=
  { chainHeight := 0, preCommitChallengeDelay := 10,
    precommitMsgWait := fun _ _ => none,
    commitMsgWait := fun _ _ => none,
    statePreCommitInfo := fun _ _ => none,
    stateSectorInfoPresent := fun _ _ => false }

/-- No registration handle set (no claims are attempted). -/
def c5Ps : Pollers := ⟨false, false, false, false, false⟩

/-- A model in which worker `0`'s info token is `7`, the resource spec is
the info token itself, and the admission test accepts exactly requests
derived from token `7`: the candidate worker's own spec is acceptable, the
zero-valued `info` variable's spec is not. -/
def c7M : SchedModel :=
  { openWindowWorker := fun _ => 0,
    workerInfo := fun _ => 7,
    resourceSpec := fun info _ _ => info,
    canHandleRequest := fun _ res _ _ _ => res == 7 }

/-- The single queued task. -/
def c7Task : WorkerRequest := ⟨0, 0, 0⟩

/-- One open window with allocation token 5 and an empty pending list. -/
def c7Windows : List SchedWindow := [⟨5, []⟩]

/-- A record whose commit message is claimed (stage 5 task id set) but not
yet completed, with landing unconfirmed. -/
def c9Task : Row :=
  { c2Row with taskPrecommitMsg := some 2, afterPrecommitMsgSuccess := true,
               seedEpoch := some 30, taskPorep := some 3, afterPorep := true,
               porepProof := [1], taskCommitMsg := some 5,
               afterCommitMsg := false, afterCommitMsgSuccess := false }

/-- An environment in which `c9Task`'s commit message has executed and the
final on-chain sector state is present. -/
def c9Env : ChainEnv :=
  { chainHeight := 100, preCommitChallengeDelay := 10,
    precommitMsgWait := fun _ _ => none,
    commitMsgWait := fun _ _ => some ⟨"ctsk", 9, "cmsg"⟩,
    statePreCommitInfo := fun _ _ => none,
    stateSectorInfoPresent := fun _ _ => true }

/-- All five registration handles set. -/
def c9Ps : Pollers := ⟨true, true, true, true, true⟩

/-- A starting tick state over the single record `c9Task`. -/
def c9St : PollSt := ⟨[c9Task], 0, [], [], 0⟩

/-!
## Row-level simulation of one record's processing

Under the schema's primary key (at most one row per `(sp_id,
sector_number)`), each record's seven checks touch only the record's own
row.  `rowProc` replays the seven checks on that single row: the guards
read the loop's snapshot `t`, the SQL conditions read the current row
value, and a conditional update whose condition fails on the current row
affects zero rows, so the claim rolls back with the serious error.
-/

/-- The evolving state of one record's row during its processing: the
current row value, the fresh-id counter, and the attempts and errors
produced so far for this record. -/
structure RowSt where
  m : Row
  nid : Int
  att : List Attempt
  errs : List String
deriving DecidableEq, Repr

/-- One stage claim on the record's single row: when the stage guard `gd`
(read from the snapshot) holds, the conditional update affects one row
exactly when the SQL condition holds of the current row value, committing
then; otherwise it affects zero rows and the claim fails with the serious
error and rolls back. -/
def rowClaimStep (g : Stage) (gd : Bool) (sp sn : Int) (s : RowSt) : RowSt :=
  if gd then
    if stageCond g sp sn s.m then
      ⟨stageSet g s.nid s.m, s.nid + 1, s.att ++ [⟨g, sp, sn, s.nid, true⟩],
        s.errs⟩
    else
      ⟨s.m, s.nid + 1, s.att ++ [⟨g, sp, sn, s.nid, false⟩],
        s.errs ++ ["expected to update 1 row"]⟩
  else s

/-- The message-A landing check on the record's single row. -/
def rowLandedA (env : ChainEnv) (t : Row) (s : RowSt) : RowSt :=
  if t.taskPrecommitMsg.isSome && !t.afterPrecommitMsgSuccess then
    match env.precommitMsgWait t.spId t.sectorNumber with
    | none => s
    | some ex =>
      if t.spId < 0 then { s with errs := s.errs ++ ["invalid actor id"] }
      else
        match env.statePreCommitInfo t.spId t.sectorNumber with
        | none => s
        | some pce =>
          { s with m :=
              if keyMatch t.spId t.sectorNumber s.m && s.m.seedEpoch.isNone
              then { s.m with
                seedEpoch := some (pce + env.preCommitChallengeDelay),
                precommitMsgTsk := some ex.executedTskCid,
                afterPrecommitMsgSuccess := true }
              else s.m }
  else s

/-- The message-B landing check on the record's single row. -/
def rowLandedB (env : ChainEnv) (ps : Pollers) (t : Row) (s : RowSt) :
    RowSt :=
  if t.afterCommitMsg && !t.afterCommitMsgSuccess && ps.commitMsg then
    match env.commitMsgWait t.spId t.sectorNumber with
    | none => s
    | some ex =>
      if t.spId < 0 then { s with errs := s.errs ++ ["invalid actor id"] }
      else
        if env.stateSectorInfoPresent t.spId t.sectorNumber then
          { s with m :=
              if keyMatch t.spId t.sectorNumber s.m &&
                  s.m.afterCommitMsgSuccess == false
              then { s.m with afterCommitMsgSuccess := true,
                              commitMsgTsk := some ex.executedTskCid }
              else s.m }
        else s
  else s

/-- One record's complete processing on its single row, with snapshot `t`
as the initial row value; `none` when the tick blocks on the unset
precommit-message promise. -/
def rowProc (env : ChainEnv) (ps : Pollers) (t : Row) (nid : Int) :
    Option RowSt :=
  let s1 := rowClaimStep .sdr (t.taskSdr.isNone && ps.sdr)
    t.spId t.sectorNumber ⟨t, nid, [], []⟩
  let s2 := rowClaimStep .trees
    (t.taskTreeD.isNone && t.taskTreeC.isNone && t.taskTreeR.isNone &&
      ps.trees && t.afterSdr) t.spId t.sectorNumber s1
  if (t.taskPrecommitMsg.isNone && t.afterTreeR && t.afterTreeD) &&
      !ps.precommitMsg then none
  else
    let s3 := rowClaimStep .precommitMsg
      (t.taskPrecommitMsg.isNone && t.afterTreeR && t.afterTreeD)
      t.spId t.sectorNumber s2
    let s4 := rowLandedA env t s3
    let s5 := rowClaimStep .porep
      (ps.porep && t.afterPrecommitMsgSuccess && t.seedEpoch.isSome &&
        t.taskPorep.isNone &&
        decide (t.seedEpoch.getD 0 + seedEpochConfidence ≤ env.chainHeight))
      t.spId t.sectorNumber s4
    let s6 := rowClaimStep .commitMsg
      (t.afterPorep && decide (0 < t.porepProof.length) &&
        t.taskCommitMsg.isNone && ps.commitMsg) t.spId t.sectorNumber s5
    some (rowLandedB env ps t s6)

/-- After a record has been processed once in a completed tick, each
stage whose registration handle is set has its task-id column(s) set
(either it already was, or the tick's claim set it), so that stage's claim
predicate is false at the next tick. -/
def ClaimedUp (ps : Pollers) (r : Row) : Prop :=
  r.failed = false →
    (ps.sdr = true → r.taskSdr.isSome = true) ∧
    (ps.trees = true → r.afterSdr = true →
      (r.taskTreeD.isSome = true ∨ r.taskTreeC.isSome = true ∨
        r.taskTreeR.isSome = true)) ∧
    (r.afterTreeR = true → r.afterTreeD = true →
      r.taskPrecommitMsg.isSome = true) ∧
    (ps.commitMsg = true → r.afterPorep = true → 0 < r.porepProof.length →
      r.taskCommitMsg.isSome = true)

/-- The schema's primary key: no two rows share a record key. -/
def UniqKeys (db : List Row) : Prop :=
  db.Pairwise (fun a b => keyMatch a.spId a.sectorNumber b = false)

/-- A record whose commit message has completed (stage 5 done) but whose
landing is not yet confirmed. -/
def c9DoneTask : Row :=
  { c9Task with afterCommitMsg := true }

/-- A starting tick state over the single record `c9DoneTask`. -/
def c9DoneSt : PollSt := ⟨[c9DoneTask], 0, [], [], 0⟩

/-- A record with its seed epoch already recorded. -/
def c10Row : Row :=
  { c2Row with seedEpoch := some 7, afterPrecommitMsgSuccess := true }

/-- The tick result over `c10Row`. -/
def c10Out : PollSt :=
  (poll c2Env c2Ps [c10Row]).getD ⟨[], 0, [], [], 0⟩

/-- The tick result over the two fresh records. -/
def c5Out : PollSt :=
  (poll c5Env c5Ps [c5RowA, c5RowB]).getD ⟨[], 0, [], [], 0⟩

/-- A model with three windows, two owned by worker 0 and one (window 2)
by worker 1, every candidate admissible. -/
def c6M : SchedModel :=
  { openWindowWorker := fun w => if w == 2 then 1 else 0,
    workerInfo := fun _ => 0,
    resourceSpec := fun _ _ _ => 0,
    canHandleRequest := fun _ _ _ _ _ => true }

/-- In-pass counts: worker 0 already received one task this pass. -/
def c6Assigned : Nat → Nat := fun wid => if wid == 0 then 1 else 0

/-- The task under consideration. -/
def c6Task : WorkerRequest := ⟨0, 0, 0⟩

/-- Three empty windows. -/
def c6Ws : List SchedWindow := [⟨0, []⟩, ⟨0, []⟩, ⟨0, []⟩]

/-- The placement trace of a whole pass started from fresh counters. -/
def passPlacements (m : SchedModel) (acc : Nat → List Nat)
    (q : List WorkerRequest) (ws : List SchedWindow) : List Placement :=
  spreadPlacements m acc q 0 ⟨ws, fun _ => 0, [], 0⟩

/-- Two windows owned by distinct workers, everything admissible. -/
def c8M : SchedModel :=
  { openWindowWorker := fun w => w,
    workerInfo := fun _ => 0,
    resourceSpec := fun _ _ _ => 0,
    canHandleRequest := fun _ _ _ _ _ => true }

/-- A queue of two tasks. -/
def c8Q : List WorkerRequest := [⟨0, 0, 0⟩, ⟨1, 0, 0⟩]

/-- Two empty windows. -/
def c8Ws : List SchedWindow := [⟨0, []⟩, ⟨0, []⟩]

/-- Both windows acceptable for every task. -/
def c8Acc : Nat → List Nat := fun _ => [0, 1]


/-- The stage-specific remainder of each claim's `WHERE` clause beyond the
record key. -/
def stageRest : Stage → Row → Bool
  | .sdr, r => r.taskSdr.isNone
  | .trees, r => r.afterSdr && r.taskTreeD.isNone && r.taskTreeC.isNone &&
      r.taskTreeR.isNone
  | .precommitMsg, r => r.taskPrecommitMsg.isNone && r.afterTreeR &&
      r.afterTreeD
  | .porep, r => r.taskPorep.isNone
  | .commitMsg, r => r.taskCommitMsg.isNone

/-- The whole-table effect of one record's row-level processing result:
replace the record's row, adopt the row-level counter, append the record's
attempts and errors, and count the record's `ChainHead` read. -/
def liftRow (sp sn : Int) (base : PollSt) (s : RowSt) : PollSt :=
  { db := base.db.map (fun r => if keyMatch sp sn r then s.m else r),
    nextId := s.nid,
    attempts := base.attempts ++ s.att,
    errors := base.errors ++ s.errs,
    chainReads := base.chainReads + 1 }

/-- The tick state produced by a first `poll` tick over `[c2Row]`. -/
def c2Out1 : PollSt := (poll c2Env c2Ps [c2Row]).getD ⟨[], 0, [], [], 0⟩

/-- The tick state produced by a second `poll` tick following `c2Out1`. -/
def c2Out2 : PollSt := (poll c2Env c2Ps c2Out1.db).getD ⟨[], 0, [], [], 0⟩

/-!
## Theorems

### C1 — the claims are atomic conditional updates with a strict row-count
-/

theorem forall₂_map_self (f : Row → Row) : ∀ db : List Row,
    List.Forall₂ (fun r r' => r' = f r) db (db.map f)
  | [] => List.Forall₂.nil
  | _ :: rest => List.Forall₂.cons rfl (forall₂_map_self f rest)

theorem stageClaimUpdate_eq (g : Stage) (sp sn id : Int) (db : List Row) :
    stageClaimUpdate g sp sn id db =
      (let u := condUpdate (stageCond g sp sn) (stageSet g id) db
       if u.2 != 1 then (u.1, false, some "expected to update 1 row")
       else (u.1, true, none)) := by
  cases g <;> rfl

theorem stageCond_free (g : Stage) (sp sn : Int) (r : Row)
    (h : stageCond g sp sn r = true) : stageFree g r = true := by
  cases g <;> simp [stageCond, stageFree] at h ⊢ <;> tauto

theorem stageCond_set (g : Stage) (sp sn id : Int) (r : Row) :
    stageCond g sp sn (stageSet g id r) = false := by
  cases g <;> simp [stageCond, stageSet, keyMatch]

theorem countP_after_claim (g : Stage) (sp sn id : Int) (db : List Row) :
    ((condUpdate (stageCond g sp sn) (stageSet g id) db).1.countP
      (stageCond g sp sn)) = 0 := by
  rw [condUpdate]
  simp only [List.countP_map]
  rw [List.countP_eq_zero]
  intro a _
  by_cases h : stageCond g sp sn a = true
  · simp [Function.comp, h, stageCond_set]
  · simp [Function.comp, h]

/-- C1: every stage claim (SDR, tree group, precommit message, PoRep,
commit message) is the atomic conditional update that sets the stage's
task-id column(s) to the newly obtained id exactly on the rows matching
the key whose column(s) are currently null (with the stated precondition
columns); a matching row necessarily has the column(s) null; whenever the
affected row count differs from one, the claim returns
`shouldCommit = false` together with a serious error, and the registration
transaction rolls back, persisting nothing; and when exactly one row
matches, the claim commits, after which no row matches, so a second claim
attempt on the same record fails with the zero-rows-affected signal. -/
theorem stage_claims_atomic_conditional (g : Stage) (sp sn id : Int)
    (db : List Row) :
    List.Forall₂ (fun r r' =>
        r' = if stageCond g sp sn r then stageSet g id r else r)
      db (stageClaimUpdate g sp sn id db).1
    ∧ (∀ r, stageCond g sp sn r = true → stageFree g r = true)
    ∧ (db.countP (stageCond g sp sn) ≠ 1 →
        (stageClaimUpdate g sp sn id db).2.1 = false ∧
        ((stageClaimUpdate g sp sn id db).2.2).isSome = true ∧
        ∀ st : PollSt, st.db = db →
          (runClaimTx g sp sn (stageClaimUpdate g sp sn) st).db = db)
    ∧ (db.countP (stageCond g sp sn) = 1 →
        (stageClaimUpdate g sp sn id db).2.1 = true ∧
        (stageClaimUpdate g sp sn id db).2.2 = none ∧
        ((stageClaimUpdate g sp sn id db).1.countP (stageCond g sp sn) = 0) ∧
        ∀ id2 : Int,
          (stageClaimUpdate g sp sn id2
            (stageClaimUpdate g sp sn id db).1).2.1 = false ∧
          ((stageClaimUpdate g sp sn id2
            (stageClaimUpdate g sp sn id db).1).2.2).isSome = true) := by
  have hup := stageClaimUpdate_eq g sp sn id db
  by_cases hc : db.countP (stageCond g sp sn) = 1
  · have h1 : stageClaimUpdate g sp sn id db =
        ((condUpdate (stageCond g sp sn) (stageSet g id) db).1, true, none) := by
      rw [hup]
      simp [condUpdate, hc]
    refine ⟨?_, fun r h => stageCond_free g sp sn r h, fun hne => absurd hc hne, ?_⟩
    · rw [h1]
      simp only [condUpdate]
      exact forall₂_map_self _ db
    intro _
    refine ⟨by rw [h1], by rw [h1], ?_, ?_⟩
    · rw [h1]
      exact countP_after_claim g sp sn id db
    · intro id2
      have hz : ((stageClaimUpdate g sp sn id db).1.countP (stageCond g sp sn)) = 0 := by
        rw [h1]
        exact countP_after_claim g sp sn id db
      have h2 := stageClaimUpdate_eq g sp sn id2 (stageClaimUpdate g sp sn id db).1
      rw [h2]
      simp [condUpdate, hz]
  · have h1 : stageClaimUpdate g sp sn id db =
        ((condUpdate (stageCond g sp sn) (stageSet g id) db).1, false,
          some "expected to update 1 row") := by
      rw [hup]
      simp [condUpdate, hc]
    refine ⟨?_, fun r h => stageCond_free g sp sn r h, ?_, fun h => absurd h hc⟩
    · rw [h1]
      simp only [condUpdate]
      exact forall₂_map_self _ db
    intro _
    refine ⟨by rw [h1], by rw [h1]; rfl, ?_⟩
    intro st hst
    have h1n : (stageClaimUpdate g sp sn st.nextId db).2.1 = false := by
      rw [stageClaimUpdate_eq]
      simp [condUpdate, hc]
    rw [runClaimTx, hst]
    simp [h1n]

/-- Witness for C1: on a table with exactly one matching record, the SDR
claim commits without error, afterwards no row matches, and a repeated
claim attempt fails. -/
theorem stage_claims_atomic_conditional_witness :
    ([c1Row].countP (stageCond .sdr 1 2)) = 1 ∧
    (stageClaimUpdate .sdr 1 2 5 [c1Row]).2.1 = true ∧
    (stageClaimUpdate .sdr 1 2 5 [c1Row]).2.2 = none ∧
    ((stageClaimUpdate .sdr 1 2 5 [c1Row]).1.countP (stageCond .sdr 1 2)) = 0 ∧
    (stageClaimUpdate .sdr 1 2 9
      (stageClaimUpdate .sdr 1 2 5 [c1Row]).1).2.1 = false := by
  have h := (stage_claims_atomic_conditional .sdr 1 2 5 [c1Row]).2.2.2 (by decide)
  exact ⟨by decide, h.1, h.2.1, h.2.2.1, (h.2.2.2 9).1⟩

/-!
### C3 — the PoRep stage is gated on the seed epoch plus the margin
-/

/-- C3: for every record and every observed chain height strictly below
the recorded seed epoch plus `seedEpochConfidence`, the PoRep check does
nothing (no claim is attempted); and a PoRep claim attempt implies the
PoRep handle is set, message-A landing succeeded, a seed epoch is
recorded, no PoRep task is set, and the height has reached the bound. -/
theorem porep_gate (env : ChainEnv) (ps : Pollers) (task : Row) (st : PollSt) :
    (∀ e : Int, task.seedEpoch = some e →
      env.chainHeight < e + seedEpochConfidence →
      pollStartPoRep env ps task st = st) ∧
    ((pollStartPoRep env ps task st).attempts ≠ st.attempts →
      ps.porep = true ∧ task.afterPrecommitMsgSuccess = true ∧
      task.taskPorep = none ∧ ∃ e : Int, task.seedEpoch = some e ∧
        e + seedEpochConfidence ≤ env.chainHeight) := by
  constructor
  · intro e he hlt
    rw [pollStartPoRep]
    have hd : (task.seedEpoch.getD 0 + seedEpochConfidence ≤ env.chainHeight)
        = False := by
      simp [he]
      omega
    simp [hd]
  · intro hne
    by_cases hg : (ps.porep && task.afterPrecommitMsgSuccess &&
        task.seedEpoch.isSome && task.taskPorep.isNone &&
        decide (task.seedEpoch.getD 0 + seedEpochConfidence ≤
          env.chainHeight)) = true
    · simp only [Bool.and_eq_true, decide_eq_true_eq] at hg
      obtain ⟨⟨⟨⟨h1, h2⟩, h3⟩, h4⟩, h5⟩ := hg
      obtain ⟨e, he⟩ := Option.isSome_iff_exists.mp h3
      refine ⟨h1, h2, Option.isNone_iff_eq_none.mp h4, e, he, ?_⟩
      rw [he] at h5
      simpa using h5
    · rw [pollStartPoRep] at hne
      rw [if_neg] at hne
      · exact absurd rfl hne
      · simp only [Bool.not_eq_true] at hg
        simp [hg]

/-- Witness for C3: at height 12 with seed epoch 10 the PoRep check leaves
the state untouched. -/
theorem porep_gate_witness :
    c3Task.seedEpoch = some 10 ∧
    c3Env.chainHeight < 10 + seedEpochConfidence ∧
    pollStartPoRep c3Env c2Ps c3Task c3St = c3St :=
  ⟨by decide, by decide,
    (porep_gate c3Env c2Ps c3Task c3St).1 10 (by decide) (by decide)⟩

/-!
### C4 — the precommit-message claim lacks the non-blocking handle check
-/

/-- C4: with no registration handle supplied for any stage and a record
that satisfies every stage's readiness predicate, the SDR, tree, PoRep and
commit-message checks all skip their claims for the tick without blocking,
but `pollStartPrecommitMsg` — which, unlike its four siblings, calls the
deferred handle without first checking that it is set — blocks the tick
(the whole `poll` run never returns), contradicting the specified
non-blocking check-then-use for every stage. -/
theorem precommit_msg_claim_blocks_unset_promise :
    pollStartPrecommitMsg c4Ps c4Task c4St = none ∧
    pollStartSDR c4Ps c4Task c4St = c4St ∧
    pollStartSDRTrees c4Ps c4Task c4St = c4St ∧
    pollStartPoRep c2Env c4Ps c4Task c4St = c4St ∧
    pollStartCommitMsg c4Ps c4Task c4St = c4St ∧
    poll c2Env c4Ps [c4Task] = none := by decide

/-!
### C7 — the admission test is fed the stale `info` variable
-/

/-- C7: the admission test is not evaluated on the candidate worker's
resource information: with one queued task and one acceptable window whose
owning worker's own resource spec the window accepts, the assigner
nevertheless rejects the candidate — it derives the request from the
zero-valued `info` variable — so the task stays queued and nothing is
scheduled, while the specified candidate-worker-derived check accepts. -/
theorem spread_admission_uses_stale_info :
    specCandidateCheck c7M c7Windows c7Task 0 = true ∧
    spreadCheck c7M c7Windows c7Task spreadScanInit 0 = false ∧
    (SpreadWS c7M [c7Task] (fun _ => [0]) c7Windows).2.2 = 0 ∧
    (SpreadWS c7M [c7Task] (fun _ => [0]) c7Windows).1 = [c7Task] := by decide

/-!
### C9 — the message-B landing check triggers on completion, not claim
-/

/-- Counterexample to C9: a record whose stage-5 (commit message) task is
claimed but not completed, with landing unconfirmed, an executed message
in the wait table, and final on-chain state present: the message-B landing
check does not run for it (the state is returned unchanged and the record
is not marked terminal-success), because the code triggers on
`after_commit_msg` (task completed) rather than on the task being
claimed. -/
theorem commit_landed_skips_claimed_record :
    c9Task.taskCommitMsg.isSome = true ∧
    c9Task.afterCommitMsgSuccess = false ∧
    (c9Env.commitMsgWait c9Task.spId c9Task.sectorNumber).isSome = true ∧
    c9Env.stateSectorInfoPresent c9Task.spId c9Task.sectorNumber = true ∧
    c9Ps.commitMsg = true ∧
    pollCommitMsgLanded c9Env c9Ps c9Task c9St = (c9St, none) ∧
    ((pollCommitMsgLanded c9Env c9Ps c9Task c9St).1.db.map
      (fun r => r.afterCommitMsgSuccess)) = [false] := by decide

/-- C9 (amended): the message-B landing check runs exactly for records
whose stage-5 task has *completed* (`after_commit_msg`), whose landing is
unconfirmed, and whose commit-message handle is set; on a confirmed
execution it fetches the final on-chain sector state, leaves the record
unchanged when that state is absent (log only, no error), and when present
marks exactly the record's unconfirmed rows terminal-success, recording
the executed tipset. -/
theorem commit_msg_landed_check (env : ChainEnv) (ps : Pollers) (task : Row)
    (st : PollSt) :
    ((task.afterCommitMsg = false ∨ task.afterCommitMsgSuccess = true ∨
        ps.commitMsg = false) →
      pollCommitMsgLanded env ps task st = (st, none)) ∧
    (env.commitMsgWait task.spId task.sectorNumber = none →
      pollCommitMsgLanded env ps task st = (st, none)) ∧
    (∀ ex, task.afterCommitMsg = true → task.afterCommitMsgSuccess = false →
      ps.commitMsg = true →
      env.commitMsgWait task.spId task.sectorNumber = some ex →
      0 ≤ task.spId →
      (env.stateSectorInfoPresent task.spId task.sectorNumber = false →
        pollCommitMsgLanded env ps task st = (st, none)) ∧
      (env.stateSectorInfoPresent task.spId task.sectorNumber = true →
        (pollCommitMsgLanded env ps task st).2 = none ∧
        List.Forall₂ (fun r r' =>
            r' = if keyMatch task.spId task.sectorNumber r &&
                r.afterCommitMsgSuccess == false
              then { r with afterCommitMsgSuccess := true,
                            commitMsgTsk := some ex.executedTskCid }
              else r)
          st.db (pollCommitMsgLanded env ps task st).1.db)) := by
  refine ⟨?_, ?_, ?_⟩
  · intro h
    rw [pollCommitMsgLanded]
    rcases h with h | h | h <;> simp [h]
  · intro h
    rw [pollCommitMsgLanded]
    by_cases hg : (task.afterCommitMsg && !task.afterCommitMsgSuccess &&
        ps.commitMsg) = true
    · simp [hg, h]
    · simp [hg]
  · intro ex h1 h2 h3 hex hsp
    have hneg : ¬ task.spId < 0 := by omega
    constructor
    · intro habs
      rw [pollCommitMsgLanded]
      simp [h1, h2, h3, hex, hneg, habs]
    · intro hpres
      have heq : pollCommitMsgLanded env ps task st =
          ({ st with db := (condUpdate
              (fun r => keyMatch task.spId task.sectorNumber r &&
                r.afterCommitMsgSuccess == false)
              (fun r => { r with afterCommitMsgSuccess := true,
                                 commitMsgTsk := some ex.executedTskCid })
              st.db).1 }, none) := by
        rw [pollCommitMsgLanded]
        simp [h1, h2, h3, hex, hneg, hpres]
      rw [heq]
      exact ⟨rfl, by simp only [condUpdate]; exact forall₂_map_self _ st.db⟩

/-- Witness for C9 (amended): a completed, unconfirmed record with the
message executed and state present is marked terminal-success. -/
theorem commit_msg_landed_check_witness :
    (pollCommitMsgLanded c9Env c9Ps c9DoneTask c9DoneSt).2 = none ∧
    List.Forall₂ (fun r r' =>
        r' = if keyMatch c9DoneTask.spId c9DoneTask.sectorNumber r &&
            r.afterCommitMsgSuccess == false
          then { r with afterCommitMsgSuccess := true,
                        commitMsgTsk :=
                          some (ExecResult.mk "ctsk" 9 "cmsg").executedTskCid }
          else r)
      c9DoneSt.db (pollCommitMsgLanded c9Env c9Ps c9DoneTask c9DoneSt).1.db :=
  ((commit_msg_landed_check c9Env c9Ps c9DoneTask c9DoneSt).2.2
    ⟨"ctsk", 9, "cmsg"⟩ (by decide) (by decide) (by decide) (by decide)
    (by decide)).2 (by decide)

/-!
### C2 — counterexample: a second tick can issue a new PoRep claim
-/

/-- Counterexample to C2: over `c2Row` (precommit message claimed and
landed on chain, seed epoch not yet recorded), the first `poll` run issues
no claim attempts — it only performs the message-A landing update — and
the second run, on the database produced by the first with chain and
external tables unchanged, issues a (successful, error-free) PoRep claim
attempt: the claim predicate of stage 4 became true through the poller's
own first-run write, so the second run is not claim-free. -/
theorem poll_twice_porep_claim :
    ((poll c2Env c2Ps [c2Row]).map (fun o => o.attempts)) = some [] ∧
    ((poll c2Env c2Ps [c2Row]).bind (fun o => poll c2Env c2Ps o.db) |>.map
      (fun o => (o.attempts.map (fun a => a.stage), o.errors))) =
      some ([Stage.porep], []) ∧
    ((poll c2Env c2Ps [c2Row]).bind (fun o => poll c2Env c2Ps o.db) |>.map
      (fun o => o.attempts)) ≠ some [] := by decide

/-!
### C5 — counterexample: the chain head is read once per record
-/

/-- Counterexample to C5: over two loaded records the tick reads the chain
head twice — `ChainHead` is called inside the record loop, once per
non-failed record, not exactly once per tick. -/
theorem chain_head_read_per_record :
    ((poll c5Env c5Ps [c5RowA, c5RowB]).map (fun o => o.chainReads)) =
      some 2 ∧
    ¬ ((poll c5Env c5Ps [c5RowA, c5RowB]).map
        (fun o => o.chainReads)) = some 1 := by decide

/-!
### C10 — the seed epoch is written at most once
-/

theorem seedKept_refl (db : List Row) : SeedKept db db :=
  fun _ r v h hv => ⟨r, h, hv⟩

theorem seedKept_trans {a b c : List Row} (h1 : SeedKept a b)
    (h2 : SeedKept b c) : SeedKept a c := by
  intro i r v h hv
  obtain ⟨r', h', hv'⟩ := h1 i r v h hv
  exact h2 i r' v h' hv'

theorem seedKept_map (f : Row → Row)
    (h : ∀ r v, r.seedEpoch = some v → (f r).seedEpoch = some v)
    (db : List Row) : SeedKept db (db.map f) := by
  intro i r v hi hv
  refine ⟨f r, ?_, h r v hv⟩
  rw [List.get?_map, hi]
  rfl

theorem stageSet_seed (g : Stage) (id : Int) (r : Row) :
    (stageSet g id r).seedEpoch = r.seedEpoch := by
  cases g <;> rfl

theorem claimUpdate_fst (g : Stage) (sp sn id : Int) (db : List Row) :
    (stageClaimUpdate g sp sn id db).1 =
      (condUpdate (stageCond g sp sn) (stageSet g id) db).1 := by
  rw [stageClaimUpdate_eq]
  dsimp only
  split <;> rfl

theorem runClaimTx_seed (g : Stage) (sp sn : Int) (st : PollSt) :
    SeedKept st.db (runClaimTx g sp sn (stageClaimUpdate g sp sn) st).db := by
  rw [runClaimTx]
  by_cases hcom : ((stageClaimUpdate g sp sn st.nextId st.db).2.1 &&
      ((stageClaimUpdate g sp sn st.nextId st.db).2.2).isNone) = true
  · simp only [hcom, if_true]
    rw [claimUpdate_fst]
    simp only [condUpdate]
    apply seedKept_map
    intro r v hv
    by_cases hc : stageCond g sp sn r = true
    · simp [hc, stageSet_seed, hv]
    · simp [hc, hv]
  · simp only [hcom]
    simp
    exact seedKept_refl _

theorem pollStartSDR_seed (ps : Pollers) (t : Row) (st : PollSt) :
    SeedKept st.db (pollStartSDR ps t st).db := by
  rw [pollStartSDR]
  split
  · exact runClaimTx_seed .sdr t.spId t.sectorNumber st
  · exact seedKept_refl _

theorem pollStartSDRTrees_seed (ps : Pollers) (t : Row) (st : PollSt) :
    SeedKept st.db (pollStartSDRTrees ps t st).db := by
  rw [pollStartSDRTrees]
  split
  · exact runClaimTx_seed .trees t.spId t.sectorNumber st
  · exact seedKept_refl _

theorem pollStartPrecommitMsg_seed (ps : Pollers) (t : Row) (st st' : PollSt)
    (h : pollStartPrecommitMsg ps t st = some st') :
    SeedKept st.db st'.db := by
  rw [pollStartPrecommitMsg] at h
  by_cases hg : (t.taskPrecommitMsg.isNone && t.afterTreeR && t.afterTreeD) = true
  · rw [if_pos hg] at h
    by_cases hpm : ps.precommitMsg = true
    · rw [if_pos hpm] at h
      obtain rfl := Option.some.inj h
      exact runClaimTx_seed .precommitMsg t.spId t.sectorNumber st
    · simp [hpm] at h
  · rw [if_neg hg] at h
    obtain rfl := Option.some.inj h
    exact seedKept_refl _

theorem pollStartPoRep_seed (env : ChainEnv) (ps : Pollers) (t : Row)
    (st : PollSt) : SeedKept st.db (pollStartPoRep env ps t st).db := by
  rw [pollStartPoRep]
  split
  · exact runClaimTx_seed .porep t.spId t.sectorNumber st
  · exact seedKept_refl _

theorem pollStartCommitMsg_seed (ps : Pollers) (t : Row) (st : PollSt) :
    SeedKept st.db (pollStartCommitMsg ps t st).db := by
  rw [pollStartCommitMsg]
  split
  · exact runClaimTx_seed .commitMsg t.spId t.sectorNumber st
  · exact seedKept_refl _

theorem mustPoll_db (p : PollSt × Option String) :
    (mustPoll p).db = p.1.db := by
  rw [mustPoll]
  split <;> rfl

theorem landedA_seed (env : ChainEnv) (t : Row) (st : PollSt) :
    SeedKept st.db (pollPrecommitMsgLanded env t st).1.db := by
  rw [pollPrecommitMsgLanded]
  split
  · split
    · exact seedKept_refl _
    · split
      · exact seedKept_refl _
      · split
        · exact seedKept_refl _
        · simp only [condUpdate]
          apply seedKept_map
          intro r v hv
          split
          · rename_i hcond
            exfalso
            rw [hv] at hcond
            simp at hcond
          · exact hv
  · exact seedKept_refl _

theorem landedB_seed (env : ChainEnv) (ps : Pollers) (t : Row) (st : PollSt) :
    SeedKept st.db (pollCommitMsgLanded env ps t st).1.db := by
  rw [pollCommitMsgLanded]
  split
  · split
    · exact seedKept_refl _
    · split
      · exact seedKept_refl _
      · split
        · simp only [condUpdate]
          apply seedKept_map
          intro r v hv
          split
          · exact hv
          · exact hv
        · exact seedKept_refl _
  · exact seedKept_refl _

theorem pollOneTask_seed (env : ChainEnv) (ps : Pollers) (task : Row)
    (st out : PollSt) (h : pollOneTask env ps task st = some out) :
    SeedKept st.db out.db := by
  rw [pollOneTask] at h
  set st1 : PollSt := { st with chainReads := st.chainReads + 1 } with hst1
  cases hpm : pollStartPrecommitMsg ps task (pollStartSDRTrees ps task
      (pollStartSDR ps task st1)) with
  | none => rw [hpm] at h; exact absurd h (by simp)
  | some st4 =>
    rw [hpm] at h
    obtain rfl := Option.some.inj h
    have k1 : SeedKept st.db (pollStartSDR ps task st1).db :=
      pollStartSDR_seed ps task st1
    have k2 := pollStartSDRTrees_seed ps task (pollStartSDR ps task st1)
    have k3 := pollStartPrecommitMsg_seed ps task _ _ hpm
    have k4 : SeedKept st4.db
        (mustPoll (pollPrecommitMsgLanded env task st4)).db := by
      rw [mustPoll_db]
      exact landedA_seed env task st4
    have k5 := pollStartPoRep_seed env ps task
      (mustPoll (pollPrecommitMsgLanded env task st4))
    have k6 := pollStartCommitMsg_seed ps task
      (pollStartPoRep env ps task
        (mustPoll (pollPrecommitMsgLanded env task st4)))
    have k7 : SeedKept (pollStartCommitMsg ps task (pollStartPoRep env ps task
        (mustPoll (pollPrecommitMsgLanded env task st4)))).db
        (mustPoll (pollCommitMsgLanded env ps task (pollStartCommitMsg ps task
          (pollStartPoRep env ps task
            (mustPoll (pollPrecommitMsgLanded env task st4)))))).db := by
      rw [mustPoll_db]
      exact landedB_seed env ps task _
    exact seedKept_trans k1 (seedKept_trans k2 (seedKept_trans k3
      (seedKept_trans k4 (seedKept_trans k5 (seedKept_trans k6 k7)))))

theorem pollTasksLoop_seed (env : ChainEnv) (ps : Pollers) :
    ∀ (tasks : List Row) (st out : PollSt),
    pollTasksLoop env ps tasks st = some out → SeedKept st.db out.db := by
  intro tasks
  induction tasks with
  | nil =>
    intro st out h
    rw [pollTasksLoop] at h
    obtain rfl := Option.some.inj h
    exact seedKept_refl _
  | cons task rest ih =>
    intro st out h
    rw [pollTasksLoop] at h
    by_cases hf : task.failed = true
    · rw [if_pos hf] at h
      exact ih st out h
    · rw [if_neg hf] at h
      cases hone : pollOneTask env ps task st with
      | none => rw [hone] at h; exact absurd h (by simp)
      | some st8 =>
        rw [hone] at h
        exact seedKept_trans (pollOneTask_seed env ps task st st8 hone)
          (ih st8 out h)

/-- C10: the message-A landing update is conditioned on `seed_epoch IS
NULL`, and no other write of this core touches `seed_epoch`, so any row
whose seed epoch is already recorded keeps exactly that value through a
completed tick. -/
theorem seed_epoch_written_once (env : ChainEnv) (ps : Pollers)
    (db : List Row) (out : PollSt) (h : poll env ps db = some out) :
    ∀ i r v, db.get? i = some r → r.seedEpoch = some v →
      ∃ r', out.db.get? i = some r' ∧ r'.seedEpoch = some v :=
  pollTasksLoop_seed env ps
    (db.filter fun r => r.afterCommitMsgSuccess != true) ⟨db, 0, [], [], 0⟩
    out h

/-- Witness for C10: a record with seed epoch 7 still carries 7 after a
tick that claims its PoRep stage. -/
theorem seed_epoch_written_once_witness :
    poll c2Env c2Ps [c10Row] = some c10Out ∧
    ∃ r', c10Out.db.get? 0 = some r' ∧ r'.seedEpoch = some 7 :=
  ⟨by decide,
    seed_epoch_written_once c2Env c2Ps [c10Row] c10Out (by decide) 0 c10Row 7
      rfl (by decide)⟩

/-!
### C5 — the chain head is read once per evaluated record
-/

theorem runClaimTx_chainReads (g : Stage) (sp sn : Int)
    (fn : Int → List Row → List Row × Bool × Option String) (st : PollSt) :
    (runClaimTx g sp sn fn st).chainReads = st.chainReads := rfl

theorem mustPoll_chainReads (p : PollSt × Option String) :
    (mustPoll p).chainReads = p.1.chainReads := by
  rw [mustPoll]
  split <;> rfl

theorem pollStartSDR_chainReads (ps : Pollers) (t : Row) (st : PollSt) :
    (pollStartSDR ps t st).chainReads = st.chainReads := by
  rw [pollStartSDR]; split <;> rfl

theorem pollStartSDRTrees_chainReads (ps : Pollers) (t : Row) (st : PollSt) :
    (pollStartSDRTrees ps t st).chainReads = st.chainReads := by
  rw [pollStartSDRTrees]; split <;> rfl

theorem pollStartPrecommitMsg_chainReads (ps : Pollers) (t : Row)
    (st st' : PollSt) (h : pollStartPrecommitMsg ps t st = some st') :
    st'.chainReads = st.chainReads := by
  rw [pollStartPrecommitMsg] at h
  by_cases hg : (t.taskPrecommitMsg.isNone && t.afterTreeR && t.afterTreeD) = true
  · rw [if_pos hg] at h
    by_cases hpm : ps.precommitMsg = true
    · rw [if_pos hpm] at h
      obtain rfl := Option.some.inj h
      rfl
    · simp [hpm] at h
  · rw [if_neg hg] at h
    obtain rfl := Option.some.inj h
    rfl

theorem pollStartPoRep_chainReads (env : ChainEnv) (ps : Pollers) (t : Row)
    (st : PollSt) : (pollStartPoRep env ps t st).chainReads = st.chainReads := by
  rw [pollStartPoRep]; split <;> rfl

theorem pollStartCommitMsg_chainReads (ps : Pollers) (t : Row) (st : PollSt) :
    (pollStartCommitMsg ps t st).chainReads = st.chainReads := by
  rw [pollStartCommitMsg]; split <;> rfl

theorem landedA_chainReads (env : ChainEnv) (t : Row) (st : PollSt) :
    (pollPrecommitMsgLanded env t st).1.chainReads = st.chainReads := by
  rw [pollPrecommitMsgLanded]
  split
  · split
    · rfl
    · split
      · rfl
      · split <;> rfl
  · rfl

theorem landedB_chainReads (env : ChainEnv) (ps : Pollers) (t : Row)
    (st : PollSt) :
    (pollCommitMsgLanded env ps t st).1.chainReads = st.chainReads := by
  rw [pollCommitMsgLanded]
  split
  · split
    · rfl
    · split
      · rfl
      · split <;> rfl
  · rfl

theorem pollOneTask_chainReads (env : ChainEnv) (ps : Pollers) (task : Row)
    (st out : PollSt) (h : pollOneTask env ps task st = some out) :
    out.chainReads = st.chainReads + 1 := by
  rw [pollOneTask] at h
  set st1 : PollSt := { st with chainReads := st.chainReads + 1 } with hst1
  cases hpm : pollStartPrecommitMsg ps task (pollStartSDRTrees ps task
      (pollStartSDR ps task st1)) with
  | none => rw [hpm] at h; exact absurd h (by simp)
  | some st4 =>
    rw [hpm] at h
    obtain rfl := Option.some.inj h
    rw [mustPoll_chainReads, landedB_chainReads, pollStartCommitMsg_chainReads,
      pollStartPoRep_chainReads, mustPoll_chainReads, landedA_chainReads]
    rw [pollStartPrecommitMsg_chainReads ps task _ _ hpm,
      pollStartSDRTrees_chainReads, pollStartSDR_chainReads]

theorem pollTasksLoop_chainReads (env : ChainEnv) (ps : Pollers) :
    ∀ (tasks : List Row) (st out : PollSt),
    pollTasksLoop env ps tasks st = some out →
    out.chainReads = st.chainReads + tasks.countP (fun t => !t.failed) := by
  intro tasks
  induction tasks with
  | nil =>
    intro st out h
    rw [pollTasksLoop] at h
    obtain rfl := Option.some.inj h
    simp
  | cons task rest ih =>
    intro st out h
    rw [pollTasksLoop] at h
    by_cases hf : task.failed = true
    · rw [if_pos hf] at h
      rw [ih st out h, List.countP_cons]
      simp [hf]
    · rw [if_neg hf] at h
      cases hone : pollOneTask env ps task st with
      | none => rw [hone] at h; exact absurd h (by simp)
      | some st8 =>
        rw [hone] at h
        rw [ih st8 out h, pollOneTask_chainReads env ps task st st8 hone,
          List.countP_cons]
        simp [hf]
        omega

/-- C5 (amended): within one tick the chain head is read exactly once per
evaluated record — once for each loaded (non-terminal) record that is not
failed — rather than exactly once per tick; the chain does not change
mid-tick, so each record's gate still sees the same height. -/
theorem chain_head_reads_per_record (env : ChainEnv) (ps : Pollers)
    (db : List Row) (out : PollSt) (h : poll env ps db = some out) :
    out.chainReads = ((db.filter fun r =>
      r.afterCommitMsgSuccess != true).countP fun t => !t.failed) := by
  have hl := pollTasksLoop_chainReads env ps
    (db.filter fun r => r.afterCommitMsgSuccess != true) ⟨db, 0, [], [], 0⟩ out h
  simpa using hl

/-- Witness for C5 (amended): over two loaded records the tick reads the
chain head twice. -/
theorem chain_head_reads_per_record_witness :
    poll c5Env c5Ps [c5RowA, c5RowB] = some c5Out ∧
    c5Out.chainReads = (([c5RowA, c5RowB].filter fun r =>
      r.afterCommitMsgSuccess != true).countP fun t => !t.failed) ∧
    c5Out.chainReads = 2 :=
  ⟨by decide,
    chain_head_reads_per_record c5Env c5Ps [c5RowA, c5RowB] c5Out (by decide),
    by decide⟩

/-!
### C6 — the scan selects the least-loaded feasible candidate, first on ties
-/

theorem spreadScanStep_not_passed {m : SchedModel} {ws : List SchedWindow}
    {assigned : Nat → Nat} {task : WorkerRequest} {st : ScanState} {w : Nat}
    (h : spreadCheck m ws task st w = false) :
    spreadScanStep m ws assigned task st w = st := by
  rw [spreadScanStep]
  simp [h]

theorem spreadScanStep_skip {m : SchedModel} {ws : List SchedWindow}
    {assigned : Nat → Nat} {task : WorkerRequest} {st : ScanState} {w : Nat}
    (hc : spreadCheck m ws task st w = true)
    (hg : geBest st.bestAssigned (assigned (m.openWindowWorker w)) = true) :
    spreadScanStep m ws assigned task st w = st := by
  rw [spreadScanStep]
  simp [hc, hg]

theorem spreadScanStep_select {m : SchedModel} {ws : List SchedWindow}
    {assigned : Nat → Nat} {task : WorkerRequest} {st : ScanState} {w : Nat}
    (hc : spreadCheck m ws task st w = true)
    (hg : geBest st.bestAssigned (assigned (m.openWindowWorker w)) = false) :
    spreadScanStep m ws assigned task st w =
      ⟨some w, m.workerInfo (m.openWindowWorker w), m.openWindowWorker w,
        some (assigned (m.openWindowWorker w))⟩ := by
  rw [spreadScanStep]
  simp [hc, hg]

theorem geBest_none (wu : Nat) : geBest none wu = false := rfl

theorem geBest_some (b wu : Nat) : geBest (some b) wu = decide (b ≤ wu) := rfl

theorem spreadScan_fold_spec (m : SchedModel) (ws : List SchedWindow)
    (assigned : Nat → Nat) (task : WorkerRequest) :
    ∀ (cs : List Nat) (st : ScanState),
    ((st.selectedWindow = none ∧ st.bestAssigned = none) ∨
      (∃ w0, st.selectedWindow = some w0 ∧
        st.bestAssigned = some (wuOf m assigned w0))) →
    (((cs.foldl (spreadScanStep m ws assigned task) st).selectedWindow =
          st.selectedWindow ∧
        (cs.foldl (spreadScanStep m ws assigned task) st).bestAssigned =
          st.bestAssigned ∧
        ∀ w' ∈ spreadScanPassed m ws assigned task st cs,
          geBest st.bestAssigned (wuOf m assigned w') = true)
      ∨ (∃ pre w post,
          spreadScanPassed m ws assigned task st cs = pre ++ w :: post ∧
          (cs.foldl (spreadScanStep m ws assigned task) st).selectedWindow =
            some w ∧
          (cs.foldl (spreadScanStep m ws assigned task) st).bestAssigned =
            some (wuOf m assigned w) ∧
          geBest st.bestAssigned (wuOf m assigned w) = false ∧
          (∀ w' ∈ pre, geBest st.bestAssigned (wuOf m assigned w') = true ∨
            wuOf m assigned w < wuOf m assigned w') ∧
          (∀ w' ∈ post, wuOf m assigned w ≤ wuOf m assigned w'))) := by
  intro cs
  induction cs with
  | nil =>
    intro st _
    left
    exact ⟨rfl, rfl, by simp [spreadScanPassed]⟩
  | cons c rest ih =>
    intro st hinv
    by_cases hc : spreadCheck m ws task st c = true
    · have hpassed : spreadScanPassed m ws assigned task st (c :: rest) =
          c :: spreadScanPassed m ws assigned task
            (spreadScanStep m ws assigned task st c) rest := by
        rw [spreadScanPassed]
        simp [hc]
      by_cases hg : geBest st.bestAssigned
          (assigned (m.openWindowWorker c)) = true
      · -- passed but skipped: state unchanged
        have hstep := spreadScanStep_skip hc hg
        rw [List.foldl_cons, hstep, hpassed]
        rcases ih st hinv with ⟨h1, h2, h3⟩ | ⟨pre, w, post, hfs, h1, h2, h3, h4, h5⟩
        · left
          refine ⟨h1, h2, ?_⟩
          intro w' hw'
          rcases List.mem_cons.mp hw' with rfl | hw'
          · exact hg
          · rw [hstep] at hw'
            exact h3 w' hw'
        · right
          refine ⟨c :: pre, w, post, ?_, h1, h2, h3, ?_, h5⟩
          · rw [hstep, hfs]
            rfl
          · intro w' hw'
            rcases List.mem_cons.mp hw' with rfl | hw'
            · exact Or.inl hg
            · exact h4 w' hw'
      · -- passed and selected
        have hg' : geBest st.bestAssigned
            (assigned (m.openWindowWorker c)) = false := by
          revert hg
          cases geBest st.bestAssigned (assigned (m.openWindowWorker c)) <;> simp
        have hstep := spreadScanStep_select hc hg'
        have hinv' : (((⟨some c, m.workerInfo (m.openWindowWorker c),
            m.openWindowWorker c, some (assigned (m.openWindowWorker c))⟩ :
              ScanState).selectedWindow = none ∧
            (⟨some c, m.workerInfo (m.openWindowWorker c),
            m.openWindowWorker c, some (assigned (m.openWindowWorker c))⟩ :
              ScanState).bestAssigned = none) ∨
            (∃ w0, (⟨some c, m.workerInfo (m.openWindowWorker c),
              m.openWindowWorker c, some (assigned (m.openWindowWorker c))⟩ :
                ScanState).selectedWindow = some w0 ∧
              (⟨some c, m.workerInfo (m.openWindowWorker c),
              m.openWindowWorker c, some (assigned (m.openWindowWorker c))⟩ :
                ScanState).bestAssigned = some (wuOf m assigned w0))) := by
          right
          exact ⟨c, rfl, rfl⟩
        rw [List.foldl_cons, hstep, hpassed]
        rcases ih _ hinv' with ⟨h1, h2, h3⟩ | ⟨pre, w, post, hfs, h1, h2, h3, h4, h5⟩
        · -- nothing in the rest beats c
          right
          refine ⟨[], c, spreadScanPassed m ws assigned task
              (spreadScanStep m ws assigned task st c) rest, rfl, ?_, ?_,
            hg', by simp, ?_⟩
          · exact h1
          · exact h2
          · intro w' hw'
            rw [hstep] at hw'
            have hle := h3 w' hw'
            rw [geBest_some] at hle
            simpa [wuOf] using hle
        · -- a later candidate w beat c
          have hwc : wuOf m assigned w < wuOf m assigned c := by
            rw [geBest_some] at h3
            simpa [wuOf] using h3
          right
          refine ⟨c :: pre, w, post, ?_, h1, h2, ?_, ?_, h5⟩
          · rw [hstep, hfs]
            rfl
          · -- geBest st.bestAssigned (wuOf w) = false
            cases hb : st.bestAssigned with
            | none => rfl
            | some b =>
              rw [hb] at hg'
              rw [geBest_some] at hg' ⊢
              simp only [decide_eq_false_iff_not] at hg' ⊢
              simp only [wuOf] at hwc ⊢
              omega
          · intro w' hw'
            rcases List.mem_cons.mp hw' with rfl | hw'
            · exact Or.inr hwc
            · rcases h4 w' hw' with hl | hr
              · right
                rw [geBest_some] at hl
                simp only [decide_eq_true_eq] at hl
                unfold wuOf at hl hwc ⊢
                omega
              · exact Or.inr hr
    · -- not passed: state unchanged, candidate dropped
      have hc' : spreadCheck m ws task st c = false := by
        revert hc
        cases spreadCheck m ws task st c <;> simp
      have hstep := @spreadScanStep_not_passed m ws assigned task st c hc'
      have hpassed : spreadScanPassed m ws assigned task st (c :: rest) =
          spreadScanPassed m ws assigned task
            (spreadScanStep m ws assigned task st c) rest := by
        rw [spreadScanPassed]
        simp [hc']
      rw [List.foldl_cons, hstep, hpassed, hstep]
      exact ih st hinv

/-- C6: for each task, among the candidates that pass the admission check
during the scan (in enumeration order of the task's acceptable windows),
the selected window's owning worker has the minimum in-pass assignment
count: every passing candidate scanned before the selected one is owned by
a strictly more loaded worker and every one scanned after by a worker at
least as loaded — so ties keep the first passing candidate.  If no
candidate passes, nothing is selected.  The scan (and hence `SpreadWS`,
which applies it to each queue entry in FIFO order via `spreadAssignOne`)
is a pure function of the queue and window snapshot, so the assignment is
deterministic. -/
theorem spread_scan_selects_least_loaded (m : SchedModel)
    (ws : List SchedWindow) (assigned : Nat → Nat) (task : WorkerRequest)
    (cs : List Nat) :
    ((spreadScan m ws assigned task cs).selectedWindow = none →
      spreadScanPassed m ws assigned task spreadScanInit cs = []) ∧
    (∀ w, (spreadScan m ws assigned task cs).selectedWindow = some w →
      ∃ pre post,
        spreadScanPassed m ws assigned task spreadScanInit cs =
          pre ++ w :: post ∧
        (∀ w' ∈ pre, wuOf m assigned w < wuOf m assigned w') ∧
        (∀ w' ∈ post, wuOf m assigned w ≤ wuOf m assigned w')) := by
  have hspec := spreadScan_fold_spec m ws assigned task cs spreadScanInit
    (Or.inl ⟨rfl, rfl⟩)
  rw [spreadScan]
  rcases hspec with ⟨h1, h2, h3⟩ | ⟨pre, w, post, hfs, h1, h2, h3, h4, h5⟩
  · constructor
    · intro _
      cases hfs : spreadScanPassed m ws assigned task spreadScanInit cs with
      | nil => rfl
      | cons a as =>
        have ha := h3 a (by rw [hfs]; exact List.mem_cons_self a as)
        exact absurd ha (by simp [spreadScanInit, geBest_none])
    · intro w hw
      rw [h1] at hw
      exact absurd hw (by simp [spreadScanInit])
  · constructor
    · intro hnone
      rw [h1] at hnone
      exact absurd hnone (by simp)
    · intro w' hw'
      rw [h1] at hw'
      obtain rfl := Option.some.inj hw'
      refine ⟨pre, post, hfs, ?_, h5⟩
      intro x hx
      rcases h4 x hx with hl | hr
      · exact absurd hl (by simp [spreadScanInit, geBest_none])
      · exact hr

/-- Witness for C6: with worker 0 already assigned one task this pass,
window 2 (owned by the unloaded worker 1) is selected over windows 0 and
1. -/
theorem spread_scan_selects_least_loaded_witness :
    (spreadScan c6M c6Ws c6Assigned c6Task [0, 1, 2]).selectedWindow =
      some 2 ∧
    ∃ pre post,
      spreadScanPassed c6M c6Ws c6Assigned c6Task spreadScanInit [0, 1, 2] =
        pre ++ 2 :: post ∧
      (∀ w' ∈ pre, wuOf c6M c6Assigned 2 < wuOf c6M c6Assigned w') ∧
      (∀ w' ∈ post, wuOf c6M c6Assigned 2 ≤ wuOf c6M c6Assigned w') :=
  ⟨by decide,
    (spread_scan_selects_least_loaded c6M c6Ws c6Assigned c6Task [0, 1, 2]).2
      2 (by decide)⟩

/-!
### C8 — outcome of one full assignment pass
-/

theorem spreadScan_mem (m : SchedModel) (ws : List SchedWindow)
    (assigned : Nat → Nat) (task : WorkerRequest) :
    ∀ (cs : List Nat) (st : ScanState) (w : Nat),
    (cs.foldl (spreadScanStep m ws assigned task) st).selectedWindow =
      some w →
    w ∈ cs ∨ st.selectedWindow = some w := by
  intro cs
  induction cs with
  | nil =>
    intro st w h
    exact Or.inr h
  | cons c rest ih =>
    intro st w h
    rw [List.foldl_cons] at h
    rcases ih (spreadScanStep m ws assigned task st c) w h with hmem | hsel
    · exact Or.inl (List.mem_cons_of_mem c hmem)
    · rw [spreadScanStep] at hsel
      by_cases hc : spreadCheck m ws task st c = true
      · simp only [hc] at hsel
        by_cases hg : geBest st.bestAssigned
            (assigned (m.openWindowWorker c)) = true
        · simp only [hg, Bool.not_true, if_true, if_false] at hsel
          simp at hsel
          exact Or.inr hsel
        · have hg' : geBest st.bestAssigned
              (assigned (m.openWindowWorker c)) = false := by
            revert hg
            cases geBest st.bestAssigned (assigned (m.openWindowWorker c)) <;>
              simp
          simp only [hg', Bool.not_true, if_false] at hsel
          simp at hsel
          left
          rw [← hsel]
          exact List.mem_cons_self c rest
      · have hc' : spreadCheck m ws task st c = false := by
          revert hc
          cases spreadCheck m ws task st c <;> simp
        simp only [hc'] at hsel
        simp at hsel
        exact Or.inr hsel

theorem spreadGo_scheduled (m : SchedModel) (acc : Nat → List Nat) :
    ∀ (q : List WorkerRequest) (sqi : Nat) (st : SpreadPassState),
    (spreadGo m acc q sqi st).scheduled =
      st.scheduled + (spreadPlacements m acc q sqi st).length := by
  intro q
  induction q with
  | nil => intro sqi st; simp [spreadGo, spreadPlacements]
  | cons t rest ih =>
    intro sqi st
    rw [spreadGo, spreadPlacements]
    cases hsel : (spreadScan m st.windows st.workerAssigned t
        (acc t.indexHeap)).selectedWindow with
    | none =>
      have hone : spreadAssignOne m acc sqi t st = st := by
        rw [spreadAssignOne, hsel]
      rw [hone, ih]
    | some wnd =>
      rw [ih, spreadAssignOne, hsel]
      simp
      omega

theorem spreadGo_rmQueue (m : SchedModel) (acc : Nat → List Nat) :
    ∀ (q : List WorkerRequest) (sqi : Nat) (st : SpreadPassState),
    (spreadGo m acc q sqi st).rmQueue =
      st.rmQueue ++ (spreadPlacements m acc q sqi st).map (fun p => p.sqi) := by
  intro q
  induction q with
  | nil => intro sqi st; simp [spreadGo, spreadPlacements]
  | cons t rest ih =>
    intro sqi st
    rw [spreadGo, spreadPlacements]
    cases hsel : (spreadScan m st.windows st.workerAssigned t
        (acc t.indexHeap)).selectedWindow with
    | none =>
      have hone : spreadAssignOne m acc sqi t st = st := by
        rw [spreadAssignOne, hsel]
      rw [hone, ih]
    | some wnd =>
      rw [ih, spreadAssignOne, hsel]
      simp

theorem spreadGo_assigned (m : SchedModel) (acc : Nat → List Nat) :
    ∀ (q : List WorkerRequest) (sqi : Nat) (st : SpreadPassState) (wid : Nat),
    (spreadGo m acc q sqi st).workerAssigned wid =
      st.workerAssigned wid +
        ((spreadPlacements m acc q sqi st).filter
          (fun p => p.worker == wid)).length := by
  intro q
  induction q with
  | nil => intro sqi st wid; simp [spreadGo, spreadPlacements]
  | cons t rest ih =>
    intro sqi st wid
    rw [spreadGo, spreadPlacements]
    cases hsel : (spreadScan m st.windows st.workerAssigned t
        (acc t.indexHeap)).selectedWindow with
    | none =>
      have hone : spreadAssignOne m acc sqi t st = st := by
        rw [spreadAssignOne, hsel]
      rw [hone, ih]
    | some wnd =>
      rw [ih]
      have hone : (spreadAssignOne m acc sqi t st).workerAssigned wid =
          (if wid == (spreadScan m st.windows st.workerAssigned t
            (acc t.indexHeap)).bestWid then st.workerAssigned wid + 1
           else st.workerAssigned wid) := by
        rw [spreadAssignOne, hsel]
      rw [hone]
      rw [List.filter_cons]
      by_cases hw : ((spreadScan m st.windows st.workerAssigned t
          (acc t.indexHeap)).bestWid == wid) = true
      · have hw2 : (wid == (spreadScan m st.windows st.workerAssigned t
            (acc t.indexHeap)).bestWid) = true := by
          have heq : (spreadScan m st.windows st.workerAssigned t
              (acc t.indexHeap)).bestWid = wid := eq_of_beq hw
          rw [heq]
          simp
        simp only [hw, hw2]
        simp
        omega
      · have hwf : ((spreadScan m st.windows st.workerAssigned t
            (acc t.indexHeap)).bestWid == wid) = false := by
          revert hw
          cases ((spreadScan m st.windows st.workerAssigned t
            (acc t.indexHeap)).bestWid == wid) <;> simp
        have hne := ne_of_beq_false hwf
        have hw2 : (wid == (spreadScan m st.windows st.workerAssigned t
            (acc t.indexHeap)).bestWid) = false := by
          cases hna : (wid == (spreadScan m st.windows st.workerAssigned t
              (acc t.indexHeap)).bestWid) with
          | false => rfl
          | true => exact absurd (eq_of_beq hna).symm hne
        simp only [hwf, hw2]
        simp

theorem getD_set_self (l : List SchedWindow) (i : Nat) (a d : SchedWindow)
    (h : i < l.length) : (l.set i a).getD i d = a := by
  rw [List.getD_eq_getElem?_getD, List.getElem?_set_self]
  · rfl
  · exact h

theorem getD_set_other (l : List SchedWindow) (i j : Nat) (a d : SchedWindow)
    (h : i ≠ j) : (l.set i a).getD j d = l.getD j d := by
  rw [List.getD_eq_getElem?_getD, List.getElem?_set_ne h,
    ← List.getD_eq_getElem?_getD]

theorem spreadGo_windows (m : SchedModel) (acc : Nat → List Nat) :
    ∀ (q : List WorkerRequest) (sqi : Nat) (st : SpreadPassState),
    (∀ t ∈ q, ∀ w ∈ acc t.indexHeap, w < st.windows.length) →
    ((spreadGo m acc q sqi st).windows.length = st.windows.length ∧
     ∀ j d, j < st.windows.length →
      (spreadGo m acc q sqi st).windows.getD j d =
        { allocated := (st.windows.getD j d).allocated,
          todo := (st.windows.getD j d).todo ++
            ((spreadPlacements m acc q sqi st).filter
              (fun p => p.window == j)).map (fun p => p.task) }) := by
  intro q
  induction q with
  | nil =>
    intro sqi st _
    refine ⟨rfl, ?_⟩
    intro j d _
    simp [spreadGo, spreadPlacements]
  | cons t rest ih =>
    intro sqi st hb
    rw [spreadGo, spreadPlacements]
    cases hsel : (spreadScan m st.windows st.workerAssigned t
        (acc t.indexHeap)).selectedWindow with
    | none =>
      have hone : spreadAssignOne m acc sqi t st = st := by
        rw [spreadAssignOne, hsel]
      rw [hone]
      exact ih (sqi + 1) st (fun t' ht' => hb t' (List.mem_cons_of_mem t ht'))
    | some wnd =>
      have hwin : wnd ∈ acc t.indexHeap := by
        rcases spreadScan_mem m st.windows st.workerAssigned t
            (acc t.indexHeap) spreadScanInit wnd hsel with hm | hin
        · exact hm
        · exact absurd hin (by simp [spreadScanInit])
      have hwlt : wnd < st.windows.length :=
        hb t (List.mem_cons_self t rest) wnd hwin
      have hone : spreadAssignOne m acc sqi t st =
          { windows := st.windows.set wnd
              (let w := st.windows.getD wnd default
               { w with todo := w.todo ++ [t] })
            workerAssigned := fun w =>
              if w == (spreadScan m st.windows st.workerAssigned t
                  (acc t.indexHeap)).bestWid then st.workerAssigned w + 1
              else st.workerAssigned w
            rmQueue := st.rmQueue ++ [sqi]
            scheduled := st.scheduled + 1 } := by
        rw [spreadAssignOne, hsel]
      have hlen : (spreadAssignOne m acc sqi t st).windows.length =
          st.windows.length := by
        rw [hone]
        exact List.length_set st.windows wnd _
      have hb' : ∀ t' ∈ rest, ∀ w ∈ acc t'.indexHeap,
          w < (spreadAssignOne m acc sqi t st).windows.length := by
        rw [hlen]
        exact fun t' ht' => hb t' (List.mem_cons_of_mem t ht')
      obtain ⟨ihlen, ihgetD⟩ := ih (sqi + 1) (spreadAssignOne m acc sqi t st) hb'
      constructor
      · rw [ihlen, hlen]
      · intro j d hj
        have hj' : j < (spreadAssignOne m acc sqi t st).windows.length := by
          rw [hlen]; exact hj
        rw [ihgetD j d hj']
        by_cases hjw : wnd = j
        · subst hjw
          have hset : (spreadAssignOne m acc sqi t st).windows.getD wnd d =
              (let w := st.windows.getD wnd default
               { w with todo := w.todo ++ [t] }) := by
            rw [hone]
            exact getD_set_self st.windows wnd _ d hwlt
          rw [hset]
          have hdd : st.windows.getD wnd default = st.windows.getD wnd d := by
            rw [List.getD_eq_getElem?_getD, List.getD_eq_getElem?_getD]
            cases hg : st.windows[wnd]? with
            | none =>
              exfalso
              rw [List.getElem?_eq_none_iff] at hg
              omega
            | some x => rfl
          rw [List.filter_cons]
          simp only [beq_self_eq_true, if_true]
          simp only [List.map_cons]
          rw [hdd]
          simp [List.append_assoc]
        · have hset : (spreadAssignOne m acc sqi t st).windows.getD j d =
              st.windows.getD j d := by
            rw [hone]
            exact getD_set_other st.windows wnd j _ d hjw
          rw [hset, List.filter_cons]
          have hfw : (((⟨sqi, t, wnd,
              (spreadScan m st.windows st.workerAssigned t
                (acc t.indexHeap)).bestWid⟩ : Placement)).window == j) =
              false := by
            cases hna : (wnd == j) with
            | false => rfl
            | true => exact absurd (eq_of_beq hna) hjw
          simp only [hfw]
          simp

theorem spreadPlacements_sqi_lb (m : SchedModel) (acc : Nat → List Nat) :
    ∀ (q : List WorkerRequest) (sqi : Nat) (st : SpreadPassState),
    ∀ p ∈ spreadPlacements m acc q sqi st, sqi ≤ p.sqi := by
  intro q
  induction q with
  | nil => intro sqi st p hp; simp [spreadPlacements] at hp
  | cons t rest ih =>
    intro sqi st p hp
    rw [spreadPlacements] at hp
    cases hsel : (spreadScan m st.windows st.workerAssigned t
        (acc t.indexHeap)).selectedWindow with
    | none =>
      rw [hsel] at hp
      have := ih (sqi + 1) st p hp
      omega
    | some wnd =>
      rw [hsel] at hp
      rcases List.mem_cons.mp hp with rfl | hp'
      · exact Nat.le_refl sqi
      · have := ih (sqi + 1) (spreadAssignOne m acc sqi t st) p hp'
        omega

theorem spreadPlacements_sqi_sorted (m : SchedModel) (acc : Nat → List Nat) :
    ∀ (q : List WorkerRequest) (sqi : Nat) (st : SpreadPassState),
    ((spreadPlacements m acc q sqi st).map (fun p => p.sqi)).Pairwise
      (· < ·) := by
  intro q
  induction q with
  | nil => intro sqi st; simp [spreadPlacements]
  | cons t rest ih =>
    intro sqi st
    rw [spreadPlacements]
    cases hsel : (spreadScan m st.windows st.workerAssigned t
        (acc t.indexHeap)).selectedWindow with
    | none => exact ih (sqi + 1) st
    | some wnd =>
      simp only [List.map_cons]
      refine List.Pairwise.cons ?_ (ih (sqi + 1) (spreadAssignOne m acc sqi t st))
      intro x hx
      obtain ⟨p, hp, rfl⟩ := List.mem_map.mp hx
      have := spreadPlacements_sqi_lb m acc rest (sqi + 1)
        (spreadAssignOne m acc sqi t st) p hp
      omega

theorem spreadPlacements_task (m : SchedModel) (acc : Nat → List Nat) :
    ∀ (q : List WorkerRequest) (sqi : Nat) (st : SpreadPassState),
    ∀ p ∈ spreadPlacements m acc q sqi st,
      ∃ k, p.sqi = sqi + k ∧ q.get? k = some p.task := by
  intro q
  induction q with
  | nil => intro sqi st p hp; simp [spreadPlacements] at hp
  | cons t rest ih =>
    intro sqi st p hp
    rw [spreadPlacements] at hp
    cases hsel : (spreadScan m st.windows st.workerAssigned t
        (acc t.indexHeap)).selectedWindow with
    | none =>
      rw [hsel] at hp
      obtain ⟨k, hk, hget⟩ := ih (sqi + 1) st p hp
      exact ⟨k + 1, by omega, hget⟩
    | some wnd =>
      rw [hsel] at hp
      rcases List.mem_cons.mp hp with rfl | hp'
      · exact ⟨0, rfl, rfl⟩
      · obtain ⟨k, hk, hget⟩ := ih (sqi + 1)
          (spreadAssignOne m acc sqi t st) p hp'
        exact ⟨k + 1, by omega, hget⟩

theorem foldr_erase_nil (k : Nat) :
    ∀ idxs : List Nat,
    idxs.foldr (fun i acc => acc.eraseIdx (i - k)) ([] : List WorkerRequest) =
      [] := by
  intro idxs
  induction idxs with
  | nil => rfl
  | cons i rest ih =>
    rw [List.foldr_cons, ih]
    exact List.eraseIdx_nil

theorem removeMarked_nil_marks : ∀ (q : List WorkerRequest) (k : Nat),
    removeMarked q k [] = q := by
  intro q
  induction q with
  | nil => intro k; rfl
  | cons a q' ih =>
    intro k
    rw [removeMarked]
    simp [ih]

theorem removeMarked_drop_low : ∀ (q : List WorkerRequest) (k j : Nat)
    (idxs : List Nat), j < k → removeMarked q k (j :: idxs) =
      removeMarked q k idxs := by
  intro q
  induction q with
  | nil => intro k j idxs _; rfl
  | cons a q' ih =>
    intro k j idxs hj
    rw [removeMarked, removeMarked]
    by_cases hk : k ∈ idxs
    · rw [if_pos (List.mem_cons_of_mem j hk), if_pos hk]
      exact ih (k + 1) j idxs (by omega)
    · have hk2 : ¬ k ∈ j :: idxs := by
        intro hmem2
        rcases List.mem_cons.mp hmem2 with rfl | hmem3
        · omega
        · exact hk hmem3
      rw [if_neg hk2, if_neg hk]
      rw [ih (k + 1) j idxs (by omega)]

theorem foldr_erase_cons (a : WorkerRequest) (q' : List WorkerRequest) :
    ∀ (idxs : List Nat) (k : Nat), (∀ j ∈ idxs, k + 1 ≤ j) →
    idxs.foldr (fun i acc => acc.eraseIdx (i - k)) (a :: q') =
      a :: idxs.foldr (fun i acc => acc.eraseIdx (i - (k + 1))) q' := by
  intro idxs
  induction idxs with
  | nil => intro k _; rfl
  | cons i rest ih =>
    intro k hlb
    rw [List.foldr_cons, List.foldr_cons,
      ih k (fun j hj => hlb j (List.mem_cons_of_mem i hj))]
    have hik : k + 1 ≤ i := hlb i (List.mem_cons_self i rest)
    have hsub : i - k = (i - (k + 1)) + 1 := by omega
    rw [hsub]
    rfl

theorem foldr_erase_removeMarked :
    ∀ (q : List WorkerRequest) (idxs : List Nat) (k : Nat),
    idxs.Pairwise (· < ·) → (∀ i ∈ idxs, k ≤ i) →
    idxs.foldr (fun i acc => acc.eraseIdx (i - k)) q =
      removeMarked q k idxs := by
  intro q
  induction q with
  | nil =>
    intro idxs k _ _
    rw [foldr_erase_nil]
    rfl
  | cons a q' ih =>
    intro idxs k hsort hlb
    cases idxs with
    | nil => rw [removeMarked_nil_marks]; rfl
    | cons i rest =>
      have hirest : ∀ j ∈ rest, i < j :=
        fun j hj => List.rel_of_pairwise_cons hsort hj
      have hrest1 : ∀ j ∈ rest, k + 1 ≤ j := by
        intro j hj
        have h1 := hirest j hj
        have h2 := hlb i (List.mem_cons_self i rest)
        omega
      have hki : k ≤ i := hlb i (List.mem_cons_self i rest)
      rw [List.foldr_cons, foldr_erase_cons a q' rest k hrest1]
      by_cases hik : i = k
      · subst hik
        have hzero : i - i = 0 := by omega
        rw [hzero]
        rw [List.eraseIdx_cons_zero]
        rw [ih rest (i + 1) (List.Pairwise.sublist (List.sublist_cons_self i rest) hsort)
          (fun j hj => hrest1 j hj)]
        rw [removeMarked]
        have hkmem : i ∈ i :: rest := List.mem_cons_self i rest
        simp only [hkmem, if_true]
        rw [removeMarked_drop_low q' (i + 1) i rest (by omega)]
      · have hpos : i - k = (i - (k + 1)) + 1 := by omega
        rw [hpos, List.eraseIdx_cons_succ]
        have hfold : (rest.foldr (fun j acc => acc.eraseIdx (j - (k + 1)))
            q').eraseIdx (i - (k + 1)) =
            (i :: rest).foldr (fun j acc => acc.eraseIdx (j - (k + 1))) q' :=
          rfl
        rw [hfold]
        rw [ih (i :: rest) (k + 1) hsort ?hlb2]
        case hlb2 =>
          intro j hj
          rcases List.mem_cons.mp hj with rfl | hj'
          · omega
          · exact hrest1 j hj'
        rw [removeMarked]
        have hknotmem : ¬ k ∈ i :: rest := by
          simp only [List.mem_cons]
          push_neg
          constructor
          · omega
          · intro hkr
            have := hrest1 k hkr
            omega
        simp only [hknotmem, if_false]

/-- C8: after one pass over the whole queue, the returned count equals the
number of placed tasks; the queue afterwards is the original queue with
exactly the placed positions removed and the relative order of the rest
preserved (`removeMarked`); every recorded placement took the task at its
queue position; every placed task was appended, in queue order, to its
chosen window's pending list (windows otherwise untouched, allocations
unchanged); and each worker's in-pass counter ends equal to the number of
tasks placed on that worker. -/
theorem spread_pass_outcome (m : SchedModel) (acc : Nat → List Nat)
    (schedQueue : List WorkerRequest) (windows : List SchedWindow)
    (hb : ∀ t ∈ schedQueue, ∀ w ∈ acc t.indexHeap, w < windows.length) :
    (SpreadWS m schedQueue acc windows).2.2 =
      (passPlacements m acc schedQueue windows).length ∧
    (SpreadWS m schedQueue acc windows).1 =
      removeMarked schedQueue 0
        ((passPlacements m acc schedQueue windows).map (fun p => p.sqi)) ∧
    (∀ p ∈ passPlacements m acc schedQueue windows,
      schedQueue.get? p.sqi = some p.task) ∧
    ((SpreadWS m schedQueue acc windows).2.1.length = windows.length ∧
     ∀ j d, j < windows.length →
      (SpreadWS m schedQueue acc windows).2.1.getD j d =
        { allocated := (windows.getD j d).allocated,
          todo := (windows.getD j d).todo ++
            ((passPlacements m acc schedQueue windows).filter
              (fun p => p.window == j)).map (fun p => p.task) }) ∧
    (∀ wid, (spreadGo m acc schedQueue 0
        ⟨windows, fun _ => 0, [], 0⟩).workerAssigned wid =
      ((passPlacements m acc schedQueue windows).filter
        (fun p => p.worker == wid)).length) := by
  have hrm : (spreadGo m acc schedQueue 0
      ⟨windows, fun _ => 0, [], 0⟩).rmQueue =
      (passPlacements m acc schedQueue windows).map (fun p => p.sqi) := by
    have h := spreadGo_rmQueue m acc schedQueue 0 ⟨windows, fun _ => 0, [], 0⟩
    simpa [passPlacements] using h
  refine ⟨?_, ?_, ?_, ?_, ?_⟩
  · have h := spreadGo_scheduled m acc schedQueue 0
      ⟨windows, fun _ => 0, [], 0⟩
    simpa [SpreadWS, passPlacements] using h
  · show (if 0 < (spreadGo m acc schedQueue 0
        ⟨windows, fun _ => 0, [], 0⟩).rmQueue.length then
          (spreadGo m acc schedQueue 0
            ⟨windows, fun _ => 0, [], 0⟩).rmQueue.reverse.foldl
            (fun q i => q.eraseIdx i) schedQueue
        else schedQueue) = _
    by_cases h0 : 0 < (spreadGo m acc schedQueue 0
        ⟨windows, fun _ => 0, [], 0⟩).rmQueue.length
    · rw [if_pos h0, List.foldl_reverse, hrm]
      have hsort := spreadPlacements_sqi_sorted m acc schedQueue 0
        ⟨windows, fun _ => 0, [], 0⟩
      have hlemma := foldr_erase_removeMarked schedQueue
        ((passPlacements m acc schedQueue windows).map (fun p => p.sqi)) 0
        (by simpa [passPlacements] using hsort) (fun i _ => Nat.zero_le i)
      simp only [Nat.sub_zero] at hlemma
      exact hlemma
    · rw [if_neg h0]
      have hnil : (spreadGo m acc schedQueue 0
          ⟨windows, fun _ => 0, [], 0⟩).rmQueue = [] := by
        cases hq : (spreadGo m acc schedQueue 0
            ⟨windows, fun _ => 0, [], 0⟩).rmQueue with
        | nil => rfl
        | cons x xs => exfalso; rw [hq] at h0; simp at h0
      rw [hnil] at hrm
      rw [← hrm, removeMarked_nil_marks]
  · intro p hp
    obtain ⟨k, hk, hget⟩ := spreadPlacements_task m acc schedQueue 0
      ⟨windows, fun _ => 0, [], 0⟩ p hp
    have hk2 : p.sqi = k := by omega
    rw [hk2]
    exact hget
  · obtain ⟨hlen, hget⟩ := spreadGo_windows m acc schedQueue 0
      ⟨windows, fun _ => 0, [], 0⟩ hb
    exact ⟨hlen, fun j d hj => hget j d hj⟩
  · intro wid
    have h := spreadGo_assigned m acc schedQueue 0
      ⟨windows, fun _ => 0, [], 0⟩ wid
    simpa [passPlacements] using h

/-- Witness for C8: two tasks over two admissible windows are both placed,
the queue empties, each window receives one task, and each worker's
counter is one. -/
theorem spread_pass_outcome_witness :
    (∀ t ∈ c8Q, ∀ w ∈ c8Acc t.indexHeap, w < c8Ws.length) ∧
    ((SpreadWS c8M c8Q c8Acc c8Ws).2.2 =
      (passPlacements c8M c8Acc c8Q c8Ws).length ∧
    (SpreadWS c8M c8Q c8Acc c8Ws).1 =
      removeMarked c8Q 0
        ((passPlacements c8M c8Acc c8Q c8Ws).map (fun p => p.sqi)) ∧
    (∀ p ∈ passPlacements c8M c8Acc c8Q c8Ws,
      c8Q.get? p.sqi = some p.task) ∧
    ((SpreadWS c8M c8Q c8Acc c8Ws).2.1.length = c8Ws.length ∧
     ∀ j d, j < c8Ws.length →
      (SpreadWS c8M c8Q c8Acc c8Ws).2.1.getD j d =
        { allocated := (c8Ws.getD j d).allocated,
          todo := (c8Ws.getD j d).todo ++
            ((passPlacements c8M c8Acc c8Q c8Ws).filter
              (fun p => p.window == j)).map (fun p => p.task) }) ∧
    (∀ wid, (spreadGo c8M c8Acc c8Q 0
        ⟨c8Ws, fun _ => 0, [], 0⟩).workerAssigned wid =
      ((passPlacements c8M c8Acc c8Q c8Ws).filter
        (fun p => p.worker == wid)).length)) :=
  ⟨by decide, spread_pass_outcome c8M c8Acc c8Q c8Ws (by decide)⟩

/-!
### C2 — a second tick after a completed tick: only the PoRep stage can be
newly claimable, and no claim errors arise

The counterexample `poll_twice_porep_claim` (above the C10 section) shows
the second tick is not attempt-free: the first tick's message-A landing
write opens the PoRep gate.  The development below proves the amended
statement: under the schema's primary key and valid actor ids, the second
tick surfaces no errors and every claim attempt it makes is a PoRep claim.
`rowProc` is related to `pollOneTask` by the bridge `pollOneTask_lift`,
one completed processing establishes `ClaimedUp`, and a `ClaimedUp` record
can only attempt PoRep.
-/


theorem stageCond_eq_key_and_rest (g : Stage) (sp sn : Int) (r : Row) :
    stageCond g sp sn r = (keyMatch sp sn r && stageRest g r) := by
  cases g <;> simp [stageCond, stageRest, Bool.and_assoc]

theorem countP_and_of_only (p q : Row → Bool) (cur : Row) :
    ∀ db : List Row, (∀ r ∈ db, p r = true → r = cur) →
    db.countP (fun r => p r && q r) =
      if q cur = true then db.countP p else 0 := by
  intro db
  induction db with
  | nil => intro _; simp
  | cons r rest ih =>
    intro ho
    have hrest := ih (fun r' hr' => ho r' (List.mem_cons_of_mem r hr'))
    rw [List.countP_cons, List.countP_cons, hrest]
    by_cases hp : p r = true
    · have hcur := ho r (List.mem_cons_self r rest) hp
      subst hcur
      by_cases hq : q r = true
      · simp [hp, hq]
      · have hq' : q r = false := by
          revert hq
          cases q r <;> simp
        simp [hp, hq']
    · have hp' : p r = false := by
        revert hp
        cases p r <;> simp
      simp [hp']

theorem countP_stageCond_of_only (g : Stage) (sp sn : Int) (cur : Row)
    (db : List Row) (ho : ∀ r ∈ db, keyMatch sp sn r = true → r = cur)
    (hcnt : db.countP (keyMatch sp sn) = 1) :
    db.countP (stageCond g sp sn) =
      if stageRest g cur = true then 1 else 0 := by
  have h1 : db.countP (stageCond g sp sn) =
      db.countP (fun r => keyMatch sp sn r && stageRest g r) := by
    apply List.countP_congr
    intro r _
    rw [stageCond_eq_key_and_rest]
  rw [h1, countP_and_of_only (keyMatch sp sn) (stageRest g) cur db ho, hcnt]

theorem stageSet_spId (g : Stage) (id : Int) (r : Row) :
    (stageSet g id r).spId = r.spId := by cases g <;> rfl

theorem stageSet_sectorNumber (g : Stage) (id : Int) (r : Row) :
    (stageSet g id r).sectorNumber = r.sectorNumber := by cases g <;> rfl

theorem keyMatch_stageSet (g : Stage) (sp sn id : Int) (r : Row) :
    keyMatch sp sn (stageSet g id r) = keyMatch sp sn r := by
  rw [keyMatch, keyMatch, stageSet_spId, stageSet_sectorNumber]

theorem mapKey_only (sp sn : Int) (m : Row) (db : List Row)
    (hm : keyMatch sp sn m = true) :
    ∀ r' ∈ db.map (fun r => if keyMatch sp sn r then m else r),
      keyMatch sp sn r' = true → r' = m := by
  intro r' hr' hk'
  obtain ⟨r, _, rfl⟩ := List.mem_map.mp hr'
  by_cases hk : keyMatch sp sn r = true
  · simp [hk]
  · have hk0 : keyMatch sp sn r = false := by
      revert hk
      cases keyMatch sp sn r <;> simp
    rw [if_neg (by simp [hk0])] at hk' ⊢
    rw [hk'] at hk0
    exact absurd hk0 (by simp)

theorem mapKey_count (sp sn : Int) (m : Row) (db : List Row)
    (hm : keyMatch sp sn m = true) :
    (db.map (fun r => if keyMatch sp sn r then m else r)).countP
      (keyMatch sp sn) = db.countP (keyMatch sp sn) := by
  rw [List.countP_map]
  apply List.countP_congr
  intro r _
  by_cases hk : keyMatch sp sn r = true
  · simp [Function.comp, hk, hm]
  · have hk0 : keyMatch sp sn r = false := by
      revert hk
      cases keyMatch sp sn r <;> simp
    simp [Function.comp, hk0]

theorem mapKey_mapKey (sp sn : Int) (m₁ m₂ : Row) (db : List Row)
    (hm₁ : keyMatch sp sn m₁ = true) :
    (db.map (fun r => if keyMatch sp sn r then m₁ else r)).map
      (fun r => if keyMatch sp sn r then m₂ else r) =
      db.map (fun r => if keyMatch sp sn r then m₂ else r) := by
  rw [List.map_map]
  apply List.map_congr_left
  intro r _
  by_cases hk : keyMatch sp sn r = true
  · simp [Function.comp, hk, hm₁]
  · have hk0 : keyMatch sp sn r = false := by
      revert hk
      cases keyMatch sp sn r <;> simp
    simp [Function.comp, hk0]

theorem mapKey_id (sp sn : Int) (m : Row) (db : List Row)
    (hall : ∀ r ∈ db, keyMatch sp sn r = true → r = m) :
    db.map (fun r => if keyMatch sp sn r then m else r) = db := by
  have h : db.map (fun r => if keyMatch sp sn r then m else r) =
      db.map (fun r => r) := by
    apply List.map_congr_left
    intro r hr
    by_cases hk : keyMatch sp sn r = true
    · rw [if_pos hk, hall r hr hk]
    · rw [if_neg hk]
  rw [h, List.map_id']

theorem claimStage_char (g : Stage) (sp sn : Int) (m' : Row) (st : PollSt)
    (hm : keyMatch sp sn m' = true)
    (hall : ∀ r ∈ st.db, keyMatch sp sn r = true → r = m')
    (hcnt : st.db.countP (keyMatch sp sn) = 1) :
    runClaimTx g sp sn (stageClaimUpdate g sp sn) st =
      { db := st.db.map (fun r => if keyMatch sp sn r then
          (if stageCond g sp sn m' then stageSet g st.nextId m' else m')
          else r),
        nextId := st.nextId + 1,
        attempts := st.attempts ++ [⟨g, sp, sn, st.nextId,
          stageCond g sp sn m'⟩],
        errors := st.errors ++ (if stageCond g sp sn m' then []
          else ["expected to update 1 row"]),
        chainReads := st.chainReads } := by
  have hcondrest : stageCond g sp sn m' = stageRest g m' := by
    rw [stageCond_eq_key_and_rest, hm]
    simp
  have hn : st.db.countP (stageCond g sp sn) =
      if stageCond g sp sn m' = true then 1 else 0 := by
    rw [countP_stageCond_of_only g sp sn m' st.db hall hcnt, hcondrest]
  by_cases hcond : stageCond g sp sn m' = true
  · have hn1 : st.db.countP (stageCond g sp sn) = 1 := by
      rw [hn, if_pos hcond]
    have hupd : stageClaimUpdate g sp sn st.nextId st.db =
        ((condUpdate (stageCond g sp sn) (stageSet g st.nextId) st.db).1,
          true, none) := by
      rw [stageClaimUpdate_eq]
      simp [condUpdate, hn1]
    rw [runClaimTx, hupd]
    simp only [Bool.and_self, Option.isNone_none, if_true, hcond]
    have hdb : (condUpdate (stageCond g sp sn) (stageSet g st.nextId)
        st.db).1 = st.db.map (fun r => if keyMatch sp sn r then
          stageSet g st.nextId m' else r) := by
      simp only [condUpdate]
      apply List.map_congr_left
      intro r hr
      by_cases hk : keyMatch sp sn r = true
      · have hrm : r = m' := hall r hr hk
        subst hrm
        rw [if_pos hcond, if_pos hk]
      · have hcr : stageCond g sp sn r = false := by
          rw [stageCond_eq_key_and_rest]
          revert hk
          cases keyMatch sp sn r <;> simp
        rw [if_neg (by simp [hcr]), if_neg hk]
    simp [hdb]
  · have hcond0 : stageCond g sp sn m' = false := by
      revert hcond
      cases stageCond g sp sn m' <;> simp
    have hn0 : st.db.countP (stageCond g sp sn) = 0 := by
      rw [hn, if_neg (by simp [hcond0])]
    have hupd : stageClaimUpdate g sp sn st.nextId st.db =
        ((condUpdate (stageCond g sp sn) (stageSet g st.nextId) st.db).1,
          false, some "expected to update 1 row") := by
      rw [stageClaimUpdate_eq]
      simp [condUpdate, hn0]
    rw [runClaimTx, hupd]
    simp only [hcond0, Bool.false_and, if_false]
    have hdb : st.db.map (fun r => if keyMatch sp sn r then
        (if stageCond g sp sn m' then stageSet g st.nextId m' else m')
        else r) = st.db := by
      simp only [hcond0, if_false]
      exact mapKey_id sp sn m' st.db hall
    simp [hdb]
    exact (mapKey_id sp sn m' st.db hall).symm


theorem rowClaimStep_key (g : Stage) (gd : Bool) (sp sn : Int) (s : RowSt) :
    keyMatch sp sn (rowClaimStep g gd sp sn s).m = keyMatch sp sn s.m := by
  rw [rowClaimStep]
  split
  · split
    · exact keyMatch_stageSet g sp sn s.nid s.m
    · rfl
  · rfl

theorem rowLandedA_key (env : ChainEnv) (t : Row) (s : RowSt) :
    keyMatch t.spId t.sectorNumber (rowLandedA env t s).m =
      keyMatch t.spId t.sectorNumber s.m := by
  rw [rowLandedA]
  split
  · split
    · rfl
    · split
      · rfl
      · split
        · rfl
        · simp only
          split
          · simp [keyMatch]
          · rfl
  · rfl

theorem rowLandedB_key (env : ChainEnv) (ps : Pollers) (t : Row) (s : RowSt) :
    keyMatch t.spId t.sectorNumber (rowLandedB env ps t s).m =
      keyMatch t.spId t.sectorNumber s.m := by
  rw [rowLandedB]
  split
  · split
    · rfl
    · split
      · rfl
      · split
        · simp only
          split
          · simp [keyMatch]
          · rfl
        · rfl
  · rfl

theorem claim_lift (g : Stage) (gd : Bool) (sp sn : Int) (base : PollSt)
    (s : RowSt) (hm : keyMatch sp sn s.m = true)
    (hcnt : base.db.countP (keyMatch sp sn) = 1) :
    (if gd then runClaimTx g sp sn (stageClaimUpdate g sp sn)
        (liftRow sp sn base s)
      else liftRow sp sn base s) =
      liftRow sp sn base (rowClaimStep g gd sp sn s) := by
  cases gd with
  | false => rw [if_neg (by simp), rowClaimStep]; rfl
  | true =>
    rw [if_pos rfl]
    have hall' : ∀ r ∈ (liftRow sp sn base s).db,
        keyMatch sp sn r = true → r = s.m :=
      mapKey_only sp sn s.m base.db hm
    have hcnt' : (liftRow sp sn base s).db.countP (keyMatch sp sn) = 1 := by
      rw [liftRow]
      simp only
      rw [mapKey_count sp sn s.m base.db hm, hcnt]
    rw [claimStage_char g sp sn s.m (liftRow sp sn base s) hm hall' hcnt']
    rw [rowClaimStep]
    rw [if_pos rfl]
    by_cases hcond : stageCond g sp sn s.m = true
    · rw [if_pos hcond]
      simp only [liftRow, hcond, if_true]
      rw [mapKey_mapKey sp sn s.m _ base.db hm]
      simp [List.append_assoc]
    · have hcond0 : stageCond g sp sn s.m = false := by
        revert hcond
        cases stageCond g sp sn s.m <;> simp
      rw [if_neg (by simp [hcond0])]
      simp only [liftRow, hcond0, if_false]
      rw [mapKey_mapKey sp sn s.m _ base.db hm]
      simp [List.append_assoc]

theorem mustPoll_none (x : PollSt) : mustPoll (x, none) = x := rfl

theorem mustPoll_some (x : PollSt) (e : String) :
    mustPoll (x, some e) = { x with errors := x.errors ++ [e] } := rfl

theorem condUpdate_lift (sp sn : Int) (base : PollSt) (s : RowSt)
    (q : Row → Bool) (f : Row → Row)
    (hm : keyMatch sp sn s.m = true) :
    (condUpdate (fun r => keyMatch sp sn r && q r) f
      (liftRow sp sn base s).db).1 =
      base.db.map (fun r => if keyMatch sp sn r then
        (if keyMatch sp sn s.m && q s.m then f s.m else s.m) else r) := by
  simp only [condUpdate, liftRow]
  rw [List.map_map]
  apply List.map_congr_left
  intro r _
  by_cases hk : keyMatch sp sn r = true
  · simp only [Function.comp, hk, if_true]
  · have hk0 : keyMatch sp sn r = false := by
      revert hk
      cases keyMatch sp sn r <;> simp
    simp [Function.comp, hk0]

theorem landedA_lift (env : ChainEnv) (t : Row) (base : PollSt) (s : RowSt)
    (hm : keyMatch t.spId t.sectorNumber s.m = true) :
    mustPoll (pollPrecommitMsgLanded env t
      (liftRow t.spId t.sectorNumber base s)) =
      liftRow t.spId t.sectorNumber base (rowLandedA env t s) := by
  rw [pollPrecommitMsgLanded, rowLandedA]
  by_cases hg : (t.taskPrecommitMsg.isSome && !t.afterPrecommitMsgSuccess)
      = true
  · rw [if_pos hg, if_pos hg]
    cases hex : env.precommitMsgWait t.spId t.sectorNumber with
    | none => rw [mustPoll_none]
    | some ex =>
      dsimp only
      by_cases hsp : t.spId < 0
      · rw [if_pos hsp, if_pos hsp, mustPoll_some]
        simp [liftRow, List.append_assoc]
      · rw [if_neg hsp, if_neg hsp]
        cases hpci : env.statePreCommitInfo t.spId t.sectorNumber with
        | none => rw [mustPoll_none]
        | some pce =>
          dsimp only
          rw [mustPoll_none]
          rw [condUpdate_lift t.spId t.sectorNumber base s
            (fun r => r.seedEpoch.isNone) _ hm]
          simp [liftRow]
  · rw [if_neg hg, if_neg hg, mustPoll_none]

theorem landedB_lift (env : ChainEnv) (ps : Pollers) (t : Row) (base : PollSt)
    (s : RowSt) (hm : keyMatch t.spId t.sectorNumber s.m = true) :
    mustPoll (pollCommitMsgLanded env ps t
      (liftRow t.spId t.sectorNumber base s)) =
      liftRow t.spId t.sectorNumber base (rowLandedB env ps t s) := by
  rw [pollCommitMsgLanded, rowLandedB]
  by_cases hg : (t.afterCommitMsg && !t.afterCommitMsgSuccess && ps.commitMsg)
      = true
  · rw [if_pos hg, if_pos hg]
    cases hex : env.commitMsgWait t.spId t.sectorNumber with
    | none => rw [mustPoll_none]
    | some ex =>
      dsimp only
      by_cases hsp : t.spId < 0
      · rw [if_pos hsp, if_pos hsp, mustPoll_some]
        simp [liftRow, List.append_assoc]
      · rw [if_neg hsp, if_neg hsp]
        by_cases hpres : env.stateSectorInfoPresent t.spId t.sectorNumber
            = true
        · rw [if_pos hpres, if_pos hpres, mustPoll_none]
          rw [condUpdate_lift t.spId t.sectorNumber base s
            (fun r => r.afterCommitMsgSuccess == false) _ hm]
          simp [liftRow]
        · rw [if_neg hpres, if_neg hpres, mustPoll_none]
  · rw [if_neg hg, if_neg hg, mustPoll_none]

theorem pollOneTask_lift (env : ChainEnv) (ps : Pollers) (t : Row)
    (st : PollSt)
    (hall : ∀ r ∈ st.db, keyMatch t.spId t.sectorNumber r = true → r = t)
    (hcnt : st.db.countP (keyMatch t.spId t.sectorNumber) = 1) :
    pollOneTask env ps t st =
      (rowProc env ps t st.nextId).map (liftRow t.spId t.sectorNumber st) := by
  have hmt : keyMatch t.spId t.sectorNumber t = true := by simp [keyMatch]
  have hst1 : ({ st with chainReads := st.chainReads + 1 } : PollSt) =
      liftRow t.spId t.sectorNumber st ⟨t, st.nextId, [], []⟩ := by
    simp [liftRow, mapKey_id t.spId t.sectorNumber t st.db hall]
  have hm1 : keyMatch t.spId t.sectorNumber
      (rowClaimStep .sdr (t.taskSdr.isNone && ps.sdr) t.spId t.sectorNumber
        ⟨t, st.nextId, [], []⟩).m = true := by
    rw [rowClaimStep_key]
    exact hmt
  have hm2 : keyMatch t.spId t.sectorNumber
      (rowClaimStep .trees (t.taskTreeD.isNone && t.taskTreeC.isNone &&
          t.taskTreeR.isNone && ps.trees && t.afterSdr) t.spId t.sectorNumber
        (rowClaimStep .sdr (t.taskSdr.isNone && ps.sdr) t.spId t.sectorNumber
          ⟨t, st.nextId, [], []⟩)).m = true := by
    rw [rowClaimStep_key]
    exact hm1
  have h1 : pollStartSDR ps t (liftRow t.spId t.sectorNumber st
      ⟨t, st.nextId, [], []⟩) = liftRow t.spId t.sectorNumber st
      (rowClaimStep .sdr (t.taskSdr.isNone && ps.sdr) t.spId t.sectorNumber
        ⟨t, st.nextId, [], []⟩) := by
    rw [pollStartSDR]
    exact claim_lift .sdr (t.taskSdr.isNone && ps.sdr) t.spId t.sectorNumber
      st ⟨t, st.nextId, [], []⟩ hmt hcnt
  have h2 : pollStartSDRTrees ps t (liftRow t.spId t.sectorNumber st
      (rowClaimStep .sdr (t.taskSdr.isNone && ps.sdr) t.spId t.sectorNumber
        ⟨t, st.nextId, [], []⟩)) = liftRow t.spId t.sectorNumber st
      (rowClaimStep .trees (t.taskTreeD.isNone && t.taskTreeC.isNone &&
          t.taskTreeR.isNone && ps.trees && t.afterSdr) t.spId t.sectorNumber
        (rowClaimStep .sdr (t.taskSdr.isNone && ps.sdr) t.spId t.sectorNumber
          ⟨t, st.nextId, [], []⟩)) := by
    rw [pollStartSDRTrees]
    exact claim_lift .trees (t.taskTreeD.isNone && t.taskTreeC.isNone &&
        t.taskTreeR.isNone && ps.trees && t.afterSdr) t.spId t.sectorNumber
      st _ hm1 hcnt
  rw [pollOneTask, rowProc, hst1, h1, h2]
  set s2 : RowSt := rowClaimStep .trees (t.taskTreeD.isNone &&
      t.taskTreeC.isNone && t.taskTreeR.isNone && ps.trees && t.afterSdr)
    t.spId t.sectorNumber (rowClaimStep .sdr (t.taskSdr.isNone && ps.sdr)
      t.spId t.sectorNumber ⟨t, st.nextId, [], []⟩) with hs2
  by_cases hblock : ((t.taskPrecommitMsg.isNone && t.afterTreeR &&
      t.afterTreeD) && !ps.precommitMsg) = true
  · have hpcnone : pollStartPrecommitMsg ps t
        (liftRow t.spId t.sectorNumber st s2) = none := by
      rw [pollStartPrecommitMsg]
      have hg : (t.taskPrecommitMsg.isNone && t.afterTreeR && t.afterTreeD)
          = true := by
        revert hblock
        cases (t.taskPrecommitMsg.isNone && t.afterTreeR && t.afterTreeD) <;>
          simp
      have hpm : ps.precommitMsg = false := by
        revert hblock
        cases ps.precommitMsg <;> simp
      rw [if_pos hg, hpm]
      rfl
    rw [hpcnone, if_pos hblock]
    rfl
  · have hs3 : pollStartPrecommitMsg ps t
        (liftRow t.spId t.sectorNumber st s2) =
        some (liftRow t.spId t.sectorNumber st
          (rowClaimStep .precommitMsg (t.taskPrecommitMsg.isNone &&
            t.afterTreeR && t.afterTreeD) t.spId t.sectorNumber s2)) := by
      rw [pollStartPrecommitMsg]
      by_cases hg : (t.taskPrecommitMsg.isNone && t.afterTreeR &&
          t.afterTreeD) = true
      · have hpm : ps.precommitMsg = true := by
          revert hblock
          rw [hg]
          cases ps.precommitMsg <;> simp
        rw [if_pos hg, hpm]
        rw [if_pos rfl]
        congr 1
        have hcl := claim_lift .precommitMsg (t.taskPrecommitMsg.isNone &&
            t.afterTreeR && t.afterTreeD) t.spId t.sectorNumber st s2 hm2 hcnt
        rw [if_pos hg] at hcl
        exact hcl
      · rw [if_neg hg]
        have hcl := claim_lift .precommitMsg (t.taskPrecommitMsg.isNone &&
            t.afterTreeR && t.afterTreeD) t.spId t.sectorNumber st s2 hm2 hcnt
        rw [if_neg hg] at hcl
        rw [hcl]
    rw [hs3, if_neg hblock]
    dsimp only
    set s3 : RowSt := rowClaimStep .precommitMsg (t.taskPrecommitMsg.isNone &&
        t.afterTreeR && t.afterTreeD) t.spId t.sectorNumber s2 with hs3d
    have hm3 : keyMatch t.spId t.sectorNumber s3.m = true := by
      rw [hs3d, rowClaimStep_key]
      exact hm2
    have h4 : mustPoll (pollPrecommitMsgLanded env t
        (liftRow t.spId t.sectorNumber st s3)) =
        liftRow t.spId t.sectorNumber st (rowLandedA env t s3) :=
      landedA_lift env t st s3 hm3
    have hm4 : keyMatch t.spId t.sectorNumber (rowLandedA env t s3).m =
        true := by
      rw [rowLandedA_key]
      exact hm3
    have h5 : pollStartPoRep env ps t (liftRow t.spId t.sectorNumber st
        (rowLandedA env t s3)) = liftRow t.spId t.sectorNumber st
        (rowClaimStep .porep (ps.porep && t.afterPrecommitMsgSuccess &&
          t.seedEpoch.isSome && t.taskPorep.isNone &&
          decide (t.seedEpoch.getD 0 + seedEpochConfidence ≤
            env.chainHeight)) t.spId t.sectorNumber
          (rowLandedA env t s3)) := by
      rw [pollStartPoRep]
      exact claim_lift .porep _ t.spId t.sectorNumber st _ hm4 hcnt
    have hm5 : keyMatch t.spId t.sectorNumber
        (rowClaimStep .porep (ps.porep && t.afterPrecommitMsgSuccess &&
          t.seedEpoch.isSome && t.taskPorep.isNone &&
          decide (t.seedEpoch.getD 0 + seedEpochConfidence ≤
            env.chainHeight)) t.spId t.sectorNumber
          (rowLandedA env t s3)).m = true := by
      rw [rowClaimStep_key]
      exact hm4
    have h6 : pollStartCommitMsg ps t (liftRow t.spId t.sectorNumber st
        (rowClaimStep .porep (ps.porep && t.afterPrecommitMsgSuccess &&
          t.seedEpoch.isSome && t.taskPorep.isNone &&
          decide (t.seedEpoch.getD 0 + seedEpochConfidence ≤
            env.chainHeight)) t.spId t.sectorNumber
          (rowLandedA env t s3))) = liftRow t.spId t.sectorNumber st
        (rowClaimStep .commitMsg (t.afterPorep &&
          decide (0 < t.porepProof.length) && t.taskCommitMsg.isNone &&
          ps.commitMsg) t.spId t.sectorNumber
          (rowClaimStep .porep (ps.porep && t.afterPrecommitMsgSuccess &&
            t.seedEpoch.isSome && t.taskPorep.isNone &&
            decide (t.seedEpoch.getD 0 + seedEpochConfidence ≤
              env.chainHeight)) t.spId t.sectorNumber
            (rowLandedA env t s3))) := by
      rw [pollStartCommitMsg]
      exact claim_lift .commitMsg _ t.spId t.sectorNumber st _ hm5 hcnt
    have hm6 : keyMatch t.spId t.sectorNumber
        (rowClaimStep .commitMsg (t.afterPorep &&
          decide (0 < t.porepProof.length) && t.taskCommitMsg.isNone &&
          ps.commitMsg) t.spId t.sectorNumber
          (rowClaimStep .porep (ps.porep && t.afterPrecommitMsgSuccess &&
            t.seedEpoch.isSome && t.taskPorep.isNone &&
            decide (t.seedEpoch.getD 0 + seedEpochConfidence ≤
              env.chainHeight)) t.spId t.sectorNumber
            (rowLandedA env t s3))).m = true := by
      rw [rowClaimStep_key]
      exact hm5
    have h7 := landedB_lift env ps t st _ hm6
    rw [h4, h5, h6, h7]
    rfl
theorem rowLandedA_pres_taskSdr (env : ChainEnv) (t : Row) (s : RowSt) :
    (rowLandedA env t s).m.taskSdr = s.m.taskSdr := by
  rw [rowLandedA]
  repeat' split
  all_goals rfl

theorem rowLandedA_pres_taskTreeD (env : ChainEnv) (t : Row) (s : RowSt) :
    (rowLandedA env t s).m.taskTreeD = s.m.taskTreeD := by
  rw [rowLandedA]
  repeat' split
  all_goals rfl

theorem rowLandedA_pres_taskTreeC (env : ChainEnv) (t : Row) (s : RowSt) :
    (rowLandedA env t s).m.taskTreeC = s.m.taskTreeC := by
  rw [rowLandedA]
  repeat' split
  all_goals rfl

theorem rowLandedA_pres_taskTreeR (env : ChainEnv) (t : Row) (s : RowSt) :
    (rowLandedA env t s).m.taskTreeR = s.m.taskTreeR := by
  rw [rowLandedA]
  repeat' split
  all_goals rfl

theorem rowLandedA_pres_taskPrecommitMsg (env : ChainEnv) (t : Row) (s : RowSt) :
    (rowLandedA env t s).m.taskPrecommitMsg = s.m.taskPrecommitMsg := by
  rw [rowLandedA]
  repeat' split
  all_goals rfl

theorem rowLandedA_pres_taskPorep (env : ChainEnv) (t : Row) (s : RowSt) :
    (rowLandedA env t s).m.taskPorep = s.m.taskPorep := by
  rw [rowLandedA]
  repeat' split
  all_goals rfl

theorem rowLandedA_pres_taskCommitMsg (env : ChainEnv) (t : Row) (s : RowSt) :
    (rowLandedA env t s).m.taskCommitMsg = s.m.taskCommitMsg := by
  rw [rowLandedA]
  repeat' split
  all_goals rfl

theorem rowLandedA_pres_afterSdr (env : ChainEnv) (t : Row) (s : RowSt) :
    (rowLandedA env t s).m.afterSdr = s.m.afterSdr := by
  rw [rowLandedA]
  repeat' split
  all_goals rfl

theorem rowLandedA_pres_afterTreeR (env : ChainEnv) (t : Row) (s : RowSt) :
    (rowLandedA env t s).m.afterTreeR = s.m.afterTreeR := by
  rw [rowLandedA]
  repeat' split
  all_goals rfl

theorem rowLandedA_pres_afterTreeD (env : ChainEnv) (t : Row) (s : RowSt) :
    (rowLandedA env t s).m.afterTreeD = s.m.afterTreeD := by
  rw [rowLandedA]
  repeat' split
  all_goals rfl

theorem rowLandedA_pres_afterPorep (env : ChainEnv) (t : Row) (s : RowSt) :
    (rowLandedA env t s).m.afterPorep = s.m.afterPorep := by
  rw [rowLandedA]
  repeat' split
  all_goals rfl

theorem rowLandedA_pres_porepProof (env : ChainEnv) (t : Row) (s : RowSt) :
    (rowLandedA env t s).m.porepProof = s.m.porepProof := by
  rw [rowLandedA]
  repeat' split
  all_goals rfl

theorem rowLandedA_pres_failed (env : ChainEnv) (t : Row) (s : RowSt) :
    (rowLandedA env t s).m.failed = s.m.failed := by
  rw [rowLandedA]
  repeat' split
  all_goals rfl

theorem rowLandedB_pres_taskSdr (env : ChainEnv) (ps : Pollers) (t : Row) (s : RowSt) :
    (rowLandedB env ps t s).m.taskSdr = s.m.taskSdr := by
  rw [rowLandedB]
  repeat' split
  all_goals rfl

theorem rowLandedB_pres_taskTreeD (env : ChainEnv) (ps : Pollers) (t : Row) (s : RowSt) :
    (rowLandedB env ps t s).m.taskTreeD = s.m.taskTreeD := by
  rw [rowLandedB]
  repeat' split
  all_goals rfl

theorem rowLandedB_pres_taskTreeC (env : ChainEnv) (ps : Pollers) (t : Row) (s : RowSt) :
    (rowLandedB env ps t s).m.taskTreeC = s.m.taskTreeC := by
  rw [rowLandedB]
  repeat' split
  all_goals rfl

theorem rowLandedB_pres_taskTreeR (env : ChainEnv) (ps : Pollers) (t : Row) (s : RowSt) :
    (rowLandedB env ps t s).m.taskTreeR = s.m.taskTreeR := by
  rw [rowLandedB]
  repeat' split
  all_goals rfl

theorem rowLandedB_pres_taskPrecommitMsg (env : ChainEnv) (ps : Pollers) (t : Row) (s : RowSt) :
    (rowLandedB env ps t s).m.taskPrecommitMsg = s.m.taskPrecommitMsg := by
  rw [rowLandedB]
  repeat' split
  all_goals rfl

theorem rowLandedB_pres_taskPorep (env : ChainEnv) (ps : Pollers) (t : Row) (s : RowSt) :
    (rowLandedB env ps t s).m.taskPorep = s.m.taskPorep := by
  rw [rowLandedB]
  repeat' split
  all_goals rfl

theorem rowLandedB_pres_taskCommitMsg (env : ChainEnv) (ps : Pollers) (t : Row) (s : RowSt) :
    (rowLandedB env ps t s).m.taskCommitMsg = s.m.taskCommitMsg := by
  rw [rowLandedB]
  repeat' split
  all_goals rfl

theorem rowLandedB_pres_afterSdr (env : ChainEnv) (ps : Pollers) (t : Row) (s : RowSt) :
    (rowLandedB env ps t s).m.afterSdr = s.m.afterSdr := by
  rw [rowLandedB]
  repeat' split
  all_goals rfl

theorem rowLandedB_pres_afterTreeR (env : ChainEnv) (ps : Pollers) (t : Row) (s : RowSt) :
    (rowLandedB env ps t s).m.afterTreeR = s.m.afterTreeR := by
  rw [rowLandedB]
  repeat' split
  all_goals rfl

theorem rowLandedB_pres_afterTreeD (env : ChainEnv) (ps : Pollers) (t : Row) (s : RowSt) :
    (rowLandedB env ps t s).m.afterTreeD = s.m.afterTreeD := by
  rw [rowLandedB]
  repeat' split
  all_goals rfl

theorem rowLandedB_pres_afterPorep (env : ChainEnv) (ps : Pollers) (t : Row) (s : RowSt) :
    (rowLandedB env ps t s).m.afterPorep = s.m.afterPorep := by
  rw [rowLandedB]
  repeat' split
  all_goals rfl

theorem rowLandedB_pres_porepProof (env : ChainEnv) (ps : Pollers) (t : Row) (s : RowSt) :
    (rowLandedB env ps t s).m.porepProof = s.m.porepProof := by
  rw [rowLandedB]
  repeat' split
  all_goals rfl

theorem rowLandedB_pres_failed (env : ChainEnv) (ps : Pollers) (t : Row) (s : RowSt) :
    (rowLandedB env ps t s).m.failed = s.m.failed := by
  rw [rowLandedB]
  repeat' split
  all_goals rfl

theorem rowClaimStep_sdr_taskTreeD (gd : Bool) (sp sn : Int) (s : RowSt) :
    (rowClaimStep .sdr gd sp sn s).m.taskTreeD = s.m.taskTreeD := by
  rw [rowClaimStep]
  repeat' split
  all_goals rfl

theorem rowClaimStep_sdr_taskTreeC (gd : Bool) (sp sn : Int) (s : RowSt) :
    (rowClaimStep .sdr gd sp sn s).m.taskTreeC = s.m.taskTreeC := by
  rw [rowClaimStep]
  repeat' split
  all_goals rfl

theorem rowClaimStep_sdr_taskTreeR (gd : Bool) (sp sn : Int) (s : RowSt) :
    (rowClaimStep .sdr gd sp sn s).m.taskTreeR = s.m.taskTreeR := by
  rw [rowClaimStep]
  repeat' split
  all_goals rfl

theorem rowClaimStep_sdr_taskPrecommitMsg (gd : Bool) (sp sn : Int) (s : RowSt) :
    (rowClaimStep .sdr gd sp sn s).m.taskPrecommitMsg = s.m.taskPrecommitMsg := by
  rw [rowClaimStep]
  repeat' split
  all_goals rfl

theorem rowClaimStep_sdr_taskPorep (gd : Bool) (sp sn : Int) (s : RowSt) :
    (rowClaimStep .sdr gd sp sn s).m.taskPorep = s.m.taskPorep := by
  rw [rowClaimStep]
  repeat' split
  all_goals rfl

theorem rowClaimStep_sdr_taskCommitMsg (gd : Bool) (sp sn : Int) (s : RowSt) :
    (rowClaimStep .sdr gd sp sn s).m.taskCommitMsg = s.m.taskCommitMsg := by
  rw [rowClaimStep]
  repeat' split
  all_goals rfl

theorem rowClaimStep_sdr_afterSdr (gd : Bool) (sp sn : Int) (s : RowSt) :
    (rowClaimStep .sdr gd sp sn s).m.afterSdr = s.m.afterSdr := by
  rw [rowClaimStep]
  repeat' split
  all_goals rfl

theorem rowClaimStep_sdr_afterTreeR (gd : Bool) (sp sn : Int) (s : RowSt) :
    (rowClaimStep .sdr gd sp sn s).m.afterTreeR = s.m.afterTreeR := by
  rw [rowClaimStep]
  repeat' split
  all_goals rfl

theorem rowClaimStep_sdr_afterTreeD (gd : Bool) (sp sn : Int) (s : RowSt) :
    (rowClaimStep .sdr gd sp sn s).m.afterTreeD = s.m.afterTreeD := by
  rw [rowClaimStep]
  repeat' split
  all_goals rfl

theorem rowClaimStep_sdr_afterPorep (gd : Bool) (sp sn : Int) (s : RowSt) :
    (rowClaimStep .sdr gd sp sn s).m.afterPorep = s.m.afterPorep := by
  rw [rowClaimStep]
  repeat' split
  all_goals rfl

theorem rowClaimStep_sdr_porepProof (gd : Bool) (sp sn : Int) (s : RowSt) :
    (rowClaimStep .sdr gd sp sn s).m.porepProof = s.m.porepProof := by
  rw [rowClaimStep]
  repeat' split
  all_goals rfl

theorem rowClaimStep_sdr_failed (gd : Bool) (sp sn : Int) (s : RowSt) :
    (rowClaimStep .sdr gd sp sn s).m.failed = s.m.failed := by
  rw [rowClaimStep]
  repeat' split
  all_goals rfl

theorem rowClaimStep_trees_taskSdr (gd : Bool) (sp sn : Int) (s : RowSt) :
    (rowClaimStep .trees gd sp sn s).m.taskSdr = s.m.taskSdr := by
  rw [rowClaimStep]
  repeat' split
  all_goals rfl

theorem rowClaimStep_trees_taskPrecommitMsg (gd : Bool) (sp sn : Int) (s : RowSt) :
    (rowClaimStep .trees gd sp sn s).m.taskPrecommitMsg = s.m.taskPrecommitMsg := by
  rw [rowClaimStep]
  repeat' split
  all_goals rfl

theorem rowClaimStep_trees_taskPorep (gd : Bool) (sp sn : Int) (s : RowSt) :
    (rowClaimStep .trees gd sp sn s).m.taskPorep = s.m.taskPorep := by
  rw [rowClaimStep]
  repeat' split
  all_goals rfl

theorem rowClaimStep_trees_taskCommitMsg (gd : Bool) (sp sn : Int) (s : RowSt) :
    (rowClaimStep .trees gd sp sn s).m.taskCommitMsg = s.m.taskCommitMsg := by
  rw [rowClaimStep]
  repeat' split
  all_goals rfl

theorem rowClaimStep_trees_afterSdr (gd : Bool) (sp sn : Int) (s : RowSt) :
    (rowClaimStep .trees gd sp sn s).m.afterSdr = s.m.afterSdr := by
  rw [rowClaimStep]
  repeat' split
  all_goals rfl

theorem rowClaimStep_trees_afterTreeR (gd : Bool) (sp sn : Int) (s : RowSt) :
    (rowClaimStep .trees gd sp sn s).m.afterTreeR = s.m.afterTreeR := by
  rw [rowClaimStep]
  repeat' split
  all_goals rfl

theorem rowClaimStep_trees_afterTreeD (gd : Bool) (sp sn : Int) (s : RowSt) :
    (rowClaimStep .trees gd sp sn s).m.afterTreeD = s.m.afterTreeD := by
  rw [rowClaimStep]
  repeat' split
  all_goals rfl

theorem rowClaimStep_trees_afterPorep (gd : Bool) (sp sn : Int) (s : RowSt) :
    (rowClaimStep .trees gd sp sn s).m.afterPorep = s.m.afterPorep := by
  rw [rowClaimStep]
  repeat' split
  all_goals rfl

theorem rowClaimStep_trees_porepProof (gd : Bool) (sp sn : Int) (s : RowSt) :
    (rowClaimStep .trees gd sp sn s).m.porepProof = s.m.porepProof := by
  rw [rowClaimStep]
  repeat' split
  all_goals rfl

theorem rowClaimStep_trees_failed (gd : Bool) (sp sn : Int) (s : RowSt) :
    (rowClaimStep .trees gd sp sn s).m.failed = s.m.failed := by
  rw [rowClaimStep]
  repeat' split
  all_goals rfl

theorem rowClaimStep_precommitMsg_taskSdr (gd : Bool) (sp sn : Int) (s : RowSt) :
    (rowClaimStep .precommitMsg gd sp sn s).m.taskSdr = s.m.taskSdr := by
  rw [rowClaimStep]
  repeat' split
  all_goals rfl

theorem rowClaimStep_precommitMsg_taskTreeD (gd : Bool) (sp sn : Int) (s : RowSt) :
    (rowClaimStep .precommitMsg gd sp sn s).m.taskTreeD = s.m.taskTreeD := by
  rw [rowClaimStep]
  repeat' split
  all_goals rfl

theorem rowClaimStep_precommitMsg_taskTreeC (gd : Bool) (sp sn : Int) (s : RowSt) :
    (rowClaimStep .precommitMsg gd sp sn s).m.taskTreeC = s.m.taskTreeC := by
  rw [rowClaimStep]
  repeat' split
  all_goals rfl

theorem rowClaimStep_precommitMsg_taskTreeR (gd : Bool) (sp sn : Int) (s : RowSt) :
    (rowClaimStep .precommitMsg gd sp sn s).m.taskTreeR = s.m.taskTreeR := by
  rw [rowClaimStep]
  repeat' split
  all_goals rfl

theorem rowClaimStep_precommitMsg_taskPorep (gd : Bool) (sp sn : Int) (s : RowSt) :
    (rowClaimStep .precommitMsg gd sp sn s).m.taskPorep = s.m.taskPorep := by
  rw [rowClaimStep]
  repeat' split
  all_goals rfl

theorem rowClaimStep_precommitMsg_taskCommitMsg (gd : Bool) (sp sn : Int) (s : RowSt) :
    (rowClaimStep .precommitMsg gd sp sn s).m.taskCommitMsg = s.m.taskCommitMsg := by
  rw [rowClaimStep]
  repeat' split
  all_goals rfl

theorem rowClaimStep_precommitMsg_afterSdr (gd : Bool) (sp sn : Int) (s : RowSt) :
    (rowClaimStep .precommitMsg gd sp sn s).m.afterSdr = s.m.afterSdr := by
  rw [rowClaimStep]
  repeat' split
  all_goals rfl

theorem rowClaimStep_precommitMsg_afterTreeR (gd : Bool) (sp sn : Int) (s : RowSt) :
    (rowClaimStep .precommitMsg gd sp sn s).m.afterTreeR = s.m.afterTreeR := by
  rw [rowClaimStep]
  repeat' split
  all_goals rfl

theorem rowClaimStep_precommitMsg_afterTreeD (gd : Bool) (sp sn : Int) (s : RowSt) :
    (rowClaimStep .precommitMsg gd sp sn s).m.afterTreeD = s.m.afterTreeD := by
  rw [rowClaimStep]
  repeat' split
  all_goals rfl

theorem rowClaimStep_precommitMsg_afterPorep (gd : Bool) (sp sn : Int) (s : RowSt) :
    (rowClaimStep .precommitMsg gd sp sn s).m.afterPorep = s.m.afterPorep := by
  rw [rowClaimStep]
  repeat' split
  all_goals rfl

theorem rowClaimStep_precommitMsg_porepProof (gd : Bool) (sp sn : Int) (s : RowSt) :
    (rowClaimStep .precommitMsg gd sp sn s).m.porepProof = s.m.porepProof := by
  rw [rowClaimStep]
  repeat' split
  all_goals rfl

theorem rowClaimStep_precommitMsg_failed (gd : Bool) (sp sn : Int) (s : RowSt) :
    (rowClaimStep .precommitMsg gd sp sn s).m.failed = s.m.failed := by
  rw [rowClaimStep]
  repeat' split
  all_goals rfl

theorem rowClaimStep_porep_taskSdr (gd : Bool) (sp sn : Int) (s : RowSt) :
    (rowClaimStep .porep gd sp sn s).m.taskSdr = s.m.taskSdr := by
  rw [rowClaimStep]
  repeat' split
  all_goals rfl

theorem rowClaimStep_porep_taskTreeD (gd : Bool) (sp sn : Int) (s : RowSt) :
    (rowClaimStep .porep gd sp sn s).m.taskTreeD = s.m.taskTreeD := by
  rw [rowClaimStep]
  repeat' split
  all_goals rfl

theorem rowClaimStep_porep_taskTreeC (gd : Bool) (sp sn : Int) (s : RowSt) :
    (rowClaimStep .porep gd sp sn s).m.taskTreeC = s.m.taskTreeC := by
  rw [rowClaimStep]
  repeat' split
  all_goals rfl

theorem rowClaimStep_porep_taskTreeR (gd : Bool) (sp sn : Int) (s : RowSt) :
    (rowClaimStep .porep gd sp sn s).m.taskTreeR = s.m.taskTreeR := by
  rw [rowClaimStep]
  repeat' split
  all_goals rfl

theorem rowClaimStep_porep_taskPrecommitMsg (gd : Bool) (sp sn : Int) (s : RowSt) :
    (rowClaimStep .porep gd sp sn s).m.taskPrecommitMsg = s.m.taskPrecommitMsg := by
  rw [rowClaimStep]
  repeat' split
  all_goals rfl

theorem rowClaimStep_porep_taskCommitMsg (gd : Bool) (sp sn : Int) (s : RowSt) :
    (rowClaimStep .porep gd sp sn s).m.taskCommitMsg = s.m.taskCommitMsg := by
  rw [rowClaimStep]
  repeat' split
  all_goals rfl

theorem rowClaimStep_porep_afterSdr (gd : Bool) (sp sn : Int) (s : RowSt) :
    (rowClaimStep .porep gd sp sn s).m.afterSdr = s.m.afterSdr := by
  rw [rowClaimStep]
  repeat' split
  all_goals rfl

theorem rowClaimStep_porep_afterTreeR (gd : Bool) (sp sn : Int) (s : RowSt) :
    (rowClaimStep .porep gd sp sn s).m.afterTreeR = s.m.afterTreeR := by
  rw [rowClaimStep]
  repeat' split
  all_goals rfl

theorem rowClaimStep_porep_afterTreeD (gd : Bool) (sp sn : Int) (s : RowSt) :
    (rowClaimStep .porep gd sp sn s).m.afterTreeD = s.m.afterTreeD := by
  rw [rowClaimStep]
  repeat' split
  all_goals rfl

theorem rowClaimStep_porep_afterPorep (gd : Bool) (sp sn : Int) (s : RowSt) :
    (rowClaimStep .porep gd sp sn s).m.afterPorep = s.m.afterPorep := by
  rw [rowClaimStep]
  repeat' split
  all_goals rfl

theorem rowClaimStep_porep_porepProof (gd : Bool) (sp sn : Int) (s : RowSt) :
    (rowClaimStep .porep gd sp sn s).m.porepProof = s.m.porepProof := by
  rw [rowClaimStep]
  repeat' split
  all_goals rfl

theorem rowClaimStep_porep_failed (gd : Bool) (sp sn : Int) (s : RowSt) :
    (rowClaimStep .porep gd sp sn s).m.failed = s.m.failed := by
  rw [rowClaimStep]
  repeat' split
  all_goals rfl

theorem rowClaimStep_commitMsg_taskSdr (gd : Bool) (sp sn : Int) (s : RowSt) :
    (rowClaimStep .commitMsg gd sp sn s).m.taskSdr = s.m.taskSdr := by
  rw [rowClaimStep]
  repeat' split
  all_goals rfl

theorem rowClaimStep_commitMsg_taskTreeD (gd : Bool) (sp sn : Int) (s : RowSt) :
    (rowClaimStep .commitMsg gd sp sn s).m.taskTreeD = s.m.taskTreeD := by
  rw [rowClaimStep]
  repeat' split
  all_goals rfl

theorem rowClaimStep_commitMsg_taskTreeC (gd : Bool) (sp sn : Int) (s : RowSt) :
    (rowClaimStep .commitMsg gd sp sn s).m.taskTreeC = s.m.taskTreeC := by
  rw [rowClaimStep]
  repeat' split
  all_goals rfl

theorem rowClaimStep_commitMsg_taskTreeR (gd : Bool) (sp sn : Int) (s : RowSt) :
    (rowClaimStep .commitMsg gd sp sn s).m.taskTreeR = s.m.taskTreeR := by
  rw [rowClaimStep]
  repeat' split
  all_goals rfl

theorem rowClaimStep_commitMsg_taskPrecommitMsg (gd : Bool) (sp sn : Int) (s : RowSt) :
    (rowClaimStep .commitMsg gd sp sn s).m.taskPrecommitMsg = s.m.taskPrecommitMsg := by
  rw [rowClaimStep]
  repeat' split
  all_goals rfl

theorem rowClaimStep_commitMsg_taskPorep (gd : Bool) (sp sn : Int) (s : RowSt) :
    (rowClaimStep .commitMsg gd sp sn s).m.taskPorep = s.m.taskPorep := by
  rw [rowClaimStep]
  repeat' split
  all_goals rfl

theorem rowClaimStep_commitMsg_afterSdr (gd : Bool) (sp sn : Int) (s : RowSt) :
    (rowClaimStep .commitMsg gd sp sn s).m.afterSdr = s.m.afterSdr := by
  rw [rowClaimStep]
  repeat' split
  all_goals rfl

theorem rowClaimStep_commitMsg_afterTreeR (gd : Bool) (sp sn : Int) (s : RowSt) :
    (rowClaimStep .commitMsg gd sp sn s).m.afterTreeR = s.m.afterTreeR := by
  rw [rowClaimStep]
  repeat' split
  all_goals rfl

theorem rowClaimStep_commitMsg_afterTreeD (gd : Bool) (sp sn : Int) (s : RowSt) :
    (rowClaimStep .commitMsg gd sp sn s).m.afterTreeD = s.m.afterTreeD := by
  rw [rowClaimStep]
  repeat' split
  all_goals rfl

theorem rowClaimStep_commitMsg_afterPorep (gd : Bool) (sp sn : Int) (s : RowSt) :
    (rowClaimStep .commitMsg gd sp sn s).m.afterPorep = s.m.afterPorep := by
  rw [rowClaimStep]
  repeat' split
  all_goals rfl

theorem rowClaimStep_commitMsg_porepProof (gd : Bool) (sp sn : Int) (s : RowSt) :
    (rowClaimStep .commitMsg gd sp sn s).m.porepProof = s.m.porepProof := by
  rw [rowClaimStep]
  repeat' split
  all_goals rfl

theorem rowClaimStep_commitMsg_failed (gd : Bool) (sp sn : Int) (s : RowSt) :
    (rowClaimStep .commitMsg gd sp sn s).m.failed = s.m.failed := by
  rw [rowClaimStep]
  repeat' split
  all_goals rfl

theorem rowClaimStep_false (g : Stage) (sp sn : Int) (s : RowSt) :
    rowClaimStep g false sp sn s = s := by
  rw [rowClaimStep]
  simp

theorem rowLandedA_att (env : ChainEnv) (t : Row) (s : RowSt) :
    (rowLandedA env t s).att = s.att := by
  rw [rowLandedA]
  repeat' split
  all_goals rfl

theorem rowLandedA_nid (env : ChainEnv) (t : Row) (s : RowSt) :
    (rowLandedA env t s).nid = s.nid := by
  rw [rowLandedA]
  repeat' split
  all_goals rfl

theorem rowLandedA_errs (env : ChainEnv) (t : Row) (s : RowSt)
    (hsp : ¬ t.spId < 0) : (rowLandedA env t s).errs = s.errs := by
  rw [rowLandedA]
  repeat' split
  all_goals first | rfl | (exfalso; omega)

theorem rowLandedB_att (env : ChainEnv) (ps : Pollers) (t : Row) (s : RowSt) :
    (rowLandedB env ps t s).att = s.att := by
  rw [rowLandedB]
  repeat' split
  all_goals rfl

theorem rowLandedB_errs (env : ChainEnv) (ps : Pollers) (t : Row) (s : RowSt)
    (hsp : ¬ t.spId < 0) : (rowLandedB env ps t s).errs = s.errs := by
  rw [rowLandedB]
  repeat' split
  all_goals first | rfl | (exfalso; omega)
theorem rowLandedA_pres_spId (env : ChainEnv) (t : Row) (s : RowSt) :
    (rowLandedA env t s).m.spId = s.m.spId := by
  rw [rowLandedA]
  repeat' split
  all_goals rfl

theorem rowLandedA_pres_sectorNumber (env : ChainEnv) (t : Row) (s : RowSt) :
    (rowLandedA env t s).m.sectorNumber = s.m.sectorNumber := by
  rw [rowLandedA]
  repeat' split
  all_goals rfl

theorem rowLandedB_pres_spId (env : ChainEnv) (ps : Pollers) (t : Row) (s : RowSt) :
    (rowLandedB env ps t s).m.spId = s.m.spId := by
  rw [rowLandedB]
  repeat' split
  all_goals rfl

theorem rowLandedB_pres_sectorNumber (env : ChainEnv) (ps : Pollers) (t : Row) (s : RowSt) :
    (rowLandedB env ps t s).m.sectorNumber = s.m.sectorNumber := by
  rw [rowLandedB]
  repeat' split
  all_goals rfl

theorem rowClaimStep_sdr_spId (gd : Bool) (sp sn : Int) (s : RowSt) :
    (rowClaimStep .sdr gd sp sn s).m.spId = s.m.spId := by
  rw [rowClaimStep]
  repeat' split
  all_goals rfl

theorem rowClaimStep_sdr_sectorNumber (gd : Bool) (sp sn : Int) (s : RowSt) :
    (rowClaimStep .sdr gd sp sn s).m.sectorNumber = s.m.sectorNumber := by
  rw [rowClaimStep]
  repeat' split
  all_goals rfl

theorem rowClaimStep_trees_spId (gd : Bool) (sp sn : Int) (s : RowSt) :
    (rowClaimStep .trees gd sp sn s).m.spId = s.m.spId := by
  rw [rowClaimStep]
  repeat' split
  all_goals rfl

theorem rowClaimStep_trees_sectorNumber (gd : Bool) (sp sn : Int) (s : RowSt) :
    (rowClaimStep .trees gd sp sn s).m.sectorNumber = s.m.sectorNumber := by
  rw [rowClaimStep]
  repeat' split
  all_goals rfl

theorem rowClaimStep_precommitMsg_spId (gd : Bool) (sp sn : Int) (s : RowSt) :
    (rowClaimStep .precommitMsg gd sp sn s).m.spId = s.m.spId := by
  rw [rowClaimStep]
  repeat' split
  all_goals rfl

theorem rowClaimStep_precommitMsg_sectorNumber (gd : Bool) (sp sn : Int) (s : RowSt) :
    (rowClaimStep .precommitMsg gd sp sn s).m.sectorNumber = s.m.sectorNumber := by
  rw [rowClaimStep]
  repeat' split
  all_goals rfl

theorem rowClaimStep_porep_spId (gd : Bool) (sp sn : Int) (s : RowSt) :
    (rowClaimStep .porep gd sp sn s).m.spId = s.m.spId := by
  rw [rowClaimStep]
  repeat' split
  all_goals rfl

theorem rowClaimStep_porep_sectorNumber (gd : Bool) (sp sn : Int) (s : RowSt) :
    (rowClaimStep .porep gd sp sn s).m.sectorNumber = s.m.sectorNumber := by
  rw [rowClaimStep]
  repeat' split
  all_goals rfl

theorem rowClaimStep_commitMsg_spId (gd : Bool) (sp sn : Int) (s : RowSt) :
    (rowClaimStep .commitMsg gd sp sn s).m.spId = s.m.spId := by
  rw [rowClaimStep]
  repeat' split
  all_goals rfl

theorem rowClaimStep_commitMsg_sectorNumber (gd : Bool) (sp sn : Int) (s : RowSt) :
    (rowClaimStep .commitMsg gd sp sn s).m.sectorNumber = s.m.sectorNumber := by
  rw [rowClaimStep]
  repeat' split
  all_goals rfl

theorem rowClaimStep_claims (g : Stage) (sp sn : Int) (s : RowSt)
    (hc : stageCond g sp sn s.m = true) :
    (rowClaimStep g true sp sn s).m = stageSet g s.nid s.m := by
  rw [rowClaimStep, if_pos rfl, if_pos hc]

theorem rowProc_claimedUp (env : ChainEnv) (ps : Pollers) (t : Row)
    (nid : Int) (s' : RowSt) (h : rowProc env ps t nid = some s') :
    s'.m.spId = t.spId ∧ s'.m.sectorNumber = t.sectorNumber ∧
      ClaimedUp ps s'.m := by
  rw [rowProc] at h
  dsimp only at h
  by_cases hb : ((t.taskPrecommitMsg.isNone && t.afterTreeR &&
      t.afterTreeD) && !ps.precommitMsg) = true
  · rw [if_pos hb] at h
    exact absurd h (by simp)
  · rw [if_neg hb] at h
    injection h with h2
    subst h2
    refine ⟨?_, ?_, ?_⟩
    · rw [rowLandedB_pres_spId, rowClaimStep_commitMsg_spId,
        rowClaimStep_porep_spId, rowLandedA_pres_spId,
        rowClaimStep_precommitMsg_spId, rowClaimStep_trees_spId,
        rowClaimStep_sdr_spId]
    · rw [rowLandedB_pres_sectorNumber, rowClaimStep_commitMsg_sectorNumber,
        rowClaimStep_porep_sectorNumber, rowLandedA_pres_sectorNumber,
        rowClaimStep_precommitMsg_sectorNumber,
        rowClaimStep_trees_sectorNumber, rowClaimStep_sdr_sectorNumber]
    · intro _hf
      refine ⟨?_, ?_, ?_, ?_⟩
      · intro hps
        rw [rowLandedB_pres_taskSdr, rowClaimStep_commitMsg_taskSdr,
          rowClaimStep_porep_taskSdr, rowLandedA_pres_taskSdr,
          rowClaimStep_precommitMsg_taskSdr, rowClaimStep_trees_taskSdr]
        cases hts : t.taskSdr with
        | some v =>
          simp only [Option.isNone_some, Bool.false_and, rowClaimStep_false]
          simp [hts]
        | none =>
          simp only [Option.isNone_none, hps, Bool.and_self]
          rw [rowClaimStep_claims]
          · simp [stageSet]
          · simp [stageCond, keyMatch, hts]
      · intro hpt hsd
        rw [rowLandedB_pres_afterSdr, rowClaimStep_commitMsg_afterSdr,
          rowClaimStep_porep_afterSdr, rowLandedA_pres_afterSdr,
          rowClaimStep_precommitMsg_afterSdr, rowClaimStep_trees_afterSdr,
          rowClaimStep_sdr_afterSdr] at hsd
        have hsd' : t.afterSdr = true := hsd
        rw [rowLandedB_pres_taskTreeD, rowClaimStep_commitMsg_taskTreeD,
          rowClaimStep_porep_taskTreeD, rowLandedA_pres_taskTreeD,
          rowClaimStep_precommitMsg_taskTreeD,
          rowLandedB_pres_taskTreeC, rowClaimStep_commitMsg_taskTreeC,
          rowClaimStep_porep_taskTreeC, rowLandedA_pres_taskTreeC,
          rowClaimStep_precommitMsg_taskTreeC,
          rowLandedB_pres_taskTreeR, rowClaimStep_commitMsg_taskTreeR,
          rowClaimStep_porep_taskTreeR, rowLandedA_pres_taskTreeR,
          rowClaimStep_precommitMsg_taskTreeR]
        cases htd : t.taskTreeD with
        | some v =>
          left
          simp only [Option.isNone_some, Bool.false_and, rowClaimStep_false]
          rw [rowClaimStep_sdr_taskTreeD]
          simp [htd]
        | none =>
          cases htc : t.taskTreeC with
          | some v =>
            right; left
            simp only [Option.isNone_some, Option.isNone_none,
              Bool.true_and, Bool.and_false, Bool.false_and,
              rowClaimStep_false]
            rw [rowClaimStep_sdr_taskTreeC]
            simp [htc]
          | none =>
            cases htr : t.taskTreeR with
            | some v =>
              right; right
              simp only [Option.isNone_some, Option.isNone_none,
                Bool.true_and, Bool.and_false, Bool.false_and,
                rowClaimStep_false]
              rw [rowClaimStep_sdr_taskTreeR]
              simp [htr]
            | none =>
              left
              simp only [Option.isNone_none, Bool.true_and, Bool.and_true,
                hpt, hsd', Bool.and_self]
              rw [rowClaimStep_claims]
              · simp [stageSet]
              · simp [stageCond, keyMatch, rowClaimStep_sdr_spId,
                  rowClaimStep_sdr_sectorNumber, rowClaimStep_sdr_afterSdr,
                  rowClaimStep_sdr_taskTreeD, rowClaimStep_sdr_taskTreeC,
                  rowClaimStep_sdr_taskTreeR, htd, htc, htr, hsd']
      · intro hr hd
        rw [rowLandedB_pres_afterTreeR, rowClaimStep_commitMsg_afterTreeR,
          rowClaimStep_porep_afterTreeR, rowLandedA_pres_afterTreeR,
          rowClaimStep_precommitMsg_afterTreeR,
          rowClaimStep_trees_afterTreeR, rowClaimStep_sdr_afterTreeR] at hr
        rw [rowLandedB_pres_afterTreeD, rowClaimStep_commitMsg_afterTreeD,
          rowClaimStep_porep_afterTreeD, rowLandedA_pres_afterTreeD,
          rowClaimStep_precommitMsg_afterTreeD,
          rowClaimStep_trees_afterTreeD, rowClaimStep_sdr_afterTreeD] at hd
        have hr' : t.afterTreeR = true := hr
        have hd' : t.afterTreeD = true := hd
        rw [rowLandedB_pres_taskPrecommitMsg,
          rowClaimStep_commitMsg_taskPrecommitMsg,
          rowClaimStep_porep_taskPrecommitMsg,
          rowLandedA_pres_taskPrecommitMsg]
        cases htp : t.taskPrecommitMsg with
        | some v =>
          simp only [Option.isNone_some, Bool.false_and, rowClaimStep_false]
          rw [rowClaimStep_trees_taskPrecommitMsg,
            rowClaimStep_sdr_taskPrecommitMsg]
          simp [htp]
        | none =>
          simp only [Option.isNone_none, Bool.true_and, hr', hd',
            Bool.and_self]
          rw [rowClaimStep_claims]
          · simp [stageSet]
          · simp [stageCond, keyMatch, rowClaimStep_trees_spId,
              rowClaimStep_sdr_spId, rowClaimStep_trees_sectorNumber,
              rowClaimStep_sdr_sectorNumber,
              rowClaimStep_trees_taskPrecommitMsg,
              rowClaimStep_sdr_taskPrecommitMsg,
              rowClaimStep_trees_afterTreeR, rowClaimStep_sdr_afterTreeR,
              rowClaimStep_trees_afterTreeD, rowClaimStep_sdr_afterTreeD,
              htp, hr', hd']
      · intro hcm hap hlen
        rw [rowLandedB_pres_afterPorep, rowClaimStep_commitMsg_afterPorep,
          rowClaimStep_porep_afterPorep, rowLandedA_pres_afterPorep,
          rowClaimStep_precommitMsg_afterPorep,
          rowClaimStep_trees_afterPorep, rowClaimStep_sdr_afterPorep] at hap
        rw [rowLandedB_pres_porepProof, rowClaimStep_commitMsg_porepProof,
          rowClaimStep_porep_porepProof, rowLandedA_pres_porepProof,
          rowClaimStep_precommitMsg_porepProof,
          rowClaimStep_trees_porepProof, rowClaimStep_sdr_porepProof] at hlen
        have hap' : t.afterPorep = true := hap
        have hlen' : 0 < t.porepProof.length := hlen
        rw [rowLandedB_pres_taskCommitMsg]
        cases htcm : t.taskCommitMsg with
        | some v =>
          simp only [Option.isNone_some, Bool.false_and, Bool.and_false,
            rowClaimStep_false]
          rw [rowClaimStep_porep_taskCommitMsg,
            rowLandedA_pres_taskCommitMsg,
            rowClaimStep_precommitMsg_taskCommitMsg,
            rowClaimStep_trees_taskCommitMsg,
            rowClaimStep_sdr_taskCommitMsg]
          simp [htcm]
        | none =>
          simp only [Option.isNone_none, hap', decide_eq_true hlen', hcm,
            Bool.true_and, Bool.and_true, Bool.and_self]
          rw [rowClaimStep_claims]
          · simp [stageSet]
          · simp [stageCond, keyMatch, rowClaimStep_porep_spId,
              rowLandedA_pres_spId, rowClaimStep_precommitMsg_spId,
              rowClaimStep_trees_spId, rowClaimStep_sdr_spId,
              rowClaimStep_porep_sectorNumber, rowLandedA_pres_sectorNumber,
              rowClaimStep_precommitMsg_sectorNumber,
              rowClaimStep_trees_sectorNumber,
              rowClaimStep_sdr_sectorNumber,
              rowClaimStep_porep_taskCommitMsg,
              rowLandedA_pres_taskCommitMsg,
              rowClaimStep_precommitMsg_taskCommitMsg,
              rowClaimStep_trees_taskCommitMsg,
              rowClaimStep_sdr_taskCommitMsg, htcm]

theorem rowClaimStep_att_commit (g : Stage) (sp sn : Int) (s : RowSt)
    (hc : stageCond g sp sn s.m = true) :
    (rowClaimStep g true sp sn s).att =
      s.att ++ [⟨g, sp, sn, s.nid, true⟩] := by
  rw [rowClaimStep, if_pos rfl, if_pos hc]

theorem rowClaimStep_errs_commit (g : Stage) (sp sn : Int) (s : RowSt)
    (hc : stageCond g sp sn s.m = true) :
    (rowClaimStep g true sp sn s).errs = s.errs := by
  rw [rowClaimStep, if_pos rfl, if_pos hc]

theorem rowProc_second (env : ChainEnv) (ps : Pollers) (t : Row) (nid : Int)
    (hcl : ClaimedUp ps t) (hnf : t.failed = false) (hsp : ¬ t.spId < 0) :
    ∃ s', rowProc env ps t nid = some s' ∧
      (∀ a ∈ s'.att, a.stage = Stage.porep) ∧ s'.errs = [] := by
  obtain ⟨h1, h2, h3, h4⟩ := hcl hnf
  have hg1 : (t.taskSdr.isNone && ps.sdr) = false := by
    cases hps : ps.sdr with
    | false => simp
    | true =>
      rcases Option.isSome_iff_exists.mp (h1 hps) with ⟨v, hv⟩
      simp [hv]
  have hg2 : (t.taskTreeD.isNone && t.taskTreeC.isNone &&
      t.taskTreeR.isNone && ps.trees && t.afterSdr) = false := by
    cases hps : ps.trees with
    | false => simp
    | true =>
      cases hsd : t.afterSdr with
      | false => simp
      | true =>
        rcases h2 hps hsd with hD | hC | hR
        · rcases Option.isSome_iff_exists.mp hD with ⟨v, hv⟩
          simp [hv]
        · rcases Option.isSome_iff_exists.mp hC with ⟨v, hv⟩
          simp [hv]
        · rcases Option.isSome_iff_exists.mp hR with ⟨v, hv⟩
          simp [hv]
  have hg3 : (t.taskPrecommitMsg.isNone && t.afterTreeR &&
      t.afterTreeD) = false := by
    cases hr : t.afterTreeR with
    | false => simp [hr]
    | true =>
      cases hd : t.afterTreeD with
      | false => simp [hd]
      | true =>
        rcases Option.isSome_iff_exists.mp (h3 hr hd) with ⟨v, hv⟩
        simp [hv]
  have hg6 : (t.afterPorep && decide (0 < t.porepProof.length) &&
      t.taskCommitMsg.isNone && ps.commitMsg) = false := by
    cases hps : ps.commitMsg with
    | false => simp
    | true =>
      cases hap : t.afterPorep with
      | false => simp [hap]
      | true =>
        by_cases hlen : 0 < t.porepProof.length
        · rcases Option.isSome_iff_exists.mp (h4 hps hap hlen) with ⟨v, hv⟩
          simp [hv]
        · simp [decide_eq_false hlen]
  have heq : rowProc env ps t nid = some (rowLandedB env ps t
      (rowClaimStep .porep (ps.porep && t.afterPrecommitMsgSuccess &&
        t.seedEpoch.isSome && t.taskPorep.isNone &&
        decide (t.seedEpoch.getD 0 + seedEpochConfidence ≤ env.chainHeight))
        t.spId t.sectorNumber (rowLandedA env t ⟨t, nid, [], []⟩))) := by
    rw [rowProc]
    dsimp only
    rw [hg3, if_neg (by simp), hg1, hg2, hg6, rowClaimStep_false,
      rowClaimStep_false, rowClaimStep_false, rowClaimStep_false]
  refine ⟨_, heq, ?_⟩
  by_cases hg5 : (ps.porep && t.afterPrecommitMsgSuccess &&
      t.seedEpoch.isSome && t.taskPorep.isNone &&
      decide (t.seedEpoch.getD 0 + seedEpochConfidence ≤
        env.chainHeight)) = true
  · have hpN : t.taskPorep.isNone = true := by
      have h5 := hg5
      simp only [Bool.and_eq_true] at h5
      exact h5.1.2
    have hcond : stageCond .porep t.spId t.sectorNumber
        (rowLandedA env t ⟨t, nid, [], []⟩).m = true := by
      have hk : keyMatch t.spId t.sectorNumber
          (rowLandedA env t (⟨t, nid, [], []⟩ : RowSt)).m = true := by
        rw [rowLandedA_key]
        simp [keyMatch]
      simp [stageCond, hk, rowLandedA_pres_taskPorep, hpN]
    refine ⟨?_, ?_⟩
    · intro a ha
      rw [rowLandedB_att, hg5, rowClaimStep_att_commit _ _ _ _ hcond,
        rowLandedA_att] at ha
      simp at ha
      subst ha
      rfl
    · rw [rowLandedB_errs _ _ _ _ hsp, hg5,
        rowClaimStep_errs_commit _ _ _ _ hcond, rowLandedA_errs _ _ _ hsp]
  · have hg5' : (ps.porep && t.afterPrecommitMsgSuccess &&
        t.seedEpoch.isSome && t.taskPorep.isNone &&
        decide (t.seedEpoch.getD 0 + seedEpochConfidence ≤
          env.chainHeight)) = false := by
      cases hG : (ps.porep && t.afterPrecommitMsgSuccess &&
          t.seedEpoch.isSome && t.taskPorep.isNone &&
          decide (t.seedEpoch.getD 0 + seedEpochConfidence ≤
            env.chainHeight)) with
      | false => rfl
      | true => exact absurd hG hg5
    refine ⟨?_, ?_⟩
    · intro a ha
      rw [rowLandedB_att, hg5', rowClaimStep_false, rowLandedA_att] at ha
      simp at ha
    · rw [rowLandedB_errs _ _ _ _ hsp, hg5', rowClaimStep_false,
        rowLandedA_errs _ _ _ hsp]

theorem uniq_hall (t : Row) : ∀ (db : List Row), UniqKeys db → t ∈ db →
    ∀ r ∈ db, keyMatch t.spId t.sectorNumber r = true → r = t := by
  intro db
  induction db with
  | nil => intro _ ht; cases ht
  | cons x xs ih =>
    intro hu ht r hr hkr
    rw [UniqKeys, List.pairwise_cons] at hu
    obtain ⟨hx, hxs⟩ := hu
    rcases List.mem_cons.mp ht with rfl | ht'
    · rcases List.mem_cons.mp hr with rfl | hr'
      · rfl
      · exact absurd hkr (by simp [hx r hr'])
    · rcases List.mem_cons.mp hr with rfl | hr'
      · exfalso
        have h1 := hx t ht'
        have h2 : keyMatch r.spId r.sectorNumber t = true := by
          simp [keyMatch] at hkr ⊢
          exact ⟨hkr.1.symm, hkr.2.symm⟩
        rw [h1] at h2
        exact absurd h2 (by simp)
      · exact ih hxs ht' r hr' hkr

theorem uniq_count (t : Row) : ∀ (db : List Row), UniqKeys db → t ∈ db →
    db.countP (keyMatch t.spId t.sectorNumber) = 1 := by
  intro db
  induction db with
  | nil => intro _ ht; cases ht
  | cons x xs ih =>
    intro hu ht
    rw [UniqKeys, List.pairwise_cons] at hu
    obtain ⟨hx, hxs⟩ := hu
    rw [List.countP_cons]
    rcases List.mem_cons.mp ht with rfl | ht'
    · have h0 : xs.countP (keyMatch t.spId t.sectorNumber) = 0 :=
        List.countP_eq_zero.mpr (fun r hr => by simp [hx r hr])
      rw [h0]
      simp [keyMatch]
    · have hxf : keyMatch t.spId t.sectorNumber x = false := by
        have h1 := hx t ht'
        cases hc : keyMatch t.spId t.sectorNumber x with
        | false => rfl
        | true =>
          exfalso
          have h2 : keyMatch x.spId x.sectorNumber t = true := by
            simp [keyMatch] at hc ⊢
            exact ⟨hc.1.symm, hc.2.symm⟩
          rw [h1] at h2
          exact absurd h2 (by simp)
      rw [ih hxs ht', hxf]
      simp

theorem uniqKeys_upd (db : List Row) (t m' : Row) (hu : UniqKeys db)
    (h1 : m'.spId = t.spId) (h2 : m'.sectorNumber = t.sectorNumber) :
    UniqKeys (db.map (fun r =>
      if keyMatch t.spId t.sectorNumber r then m' else r)) := by
  rw [UniqKeys, List.pairwise_map]
  refine List.Pairwise.imp_of_mem ?_ hu
  intro a b ha hb hab
  by_cases hka : keyMatch t.spId t.sectorNumber a = true
  · rw [if_pos hka]
    by_cases hkb : keyMatch t.spId t.sectorNumber b = true
    · rw [if_pos hkb]
      exfalso
      simp [keyMatch] at hka hkb hab
      omega
    · rw [if_neg hkb]
      cases hc : keyMatch m'.spId m'.sectorNumber b with
      | false => rfl
      | true =>
        exfalso
        rw [h1, h2] at hc
        exact absurd hc hkb
  · rw [if_neg hka]
    by_cases hkb : keyMatch t.spId t.sectorNumber b = true
    · rw [if_pos hkb]
      cases hc : keyMatch a.spId a.sectorNumber m' with
      | false => rfl
      | true =>
        exfalso
        simp [keyMatch, h1, h2] at hc
        simp [keyMatch] at hka
        omega
    · rw [if_neg hkb]
      exact hab

theorem upd_mem (db : List Row) (t m' r' : Row)
    (h : r' ∈ db.map (fun r =>
      if keyMatch t.spId t.sectorNumber r then m' else r)) :
    r' = m' ∨ (r' ∈ db ∧ keyMatch t.spId t.sectorNumber r' = false) := by
  rcases List.mem_map.mp h with ⟨r, hr, hfr⟩
  by_cases hk : keyMatch t.spId t.sectorNumber r = true
  · rw [if_pos hk] at hfr
    exact Or.inl hfr.symm
  · rw [if_neg hk] at hfr
    subst hfr
    refine Or.inr ⟨hr, ?_⟩
    cases hc : keyMatch t.spId t.sectorNumber r with
    | false => rfl
    | true => exact absurd hc hk

theorem mem_upd_of_nokey (db : List Row) (t m' u : Row) (hm : u ∈ db)
    (hk : keyMatch t.spId t.sectorNumber u = false) :
    u ∈ db.map (fun r =>
      if keyMatch t.spId t.sectorNumber r then m' else r) := by
  refine List.mem_map.mpr ⟨u, hm, ?_⟩
  rw [if_neg (by simp [hk])]

theorem pollTasksLoop_claims (env : ChainEnv) (ps : Pollers) :
    ∀ (tasks : List Row) (st st' : PollSt),
    UniqKeys st.db →
    (∀ u ∈ tasks, u ∈ st.db) →
    tasks.Pairwise (fun a b => keyMatch a.spId a.sectorNumber b = false) →
    (∀ r ∈ st.db, r.failed = true ∨ r.afterCommitMsgSuccess = true ∨
      ClaimedUp ps r ∨ r ∈ tasks) →
    (∀ r ∈ st.db, 0 ≤ r.spId) →
    pollTasksLoop env ps tasks st = some st' →
    UniqKeys st'.db ∧ (∀ r ∈ st'.db, 0 ≤ r.spId) ∧
      ∀ r ∈ st'.db, r.failed = true ∨ r.afterCommitMsgSuccess = true ∨
        ClaimedUp ps r := by
  intro tasks
  induction tasks with
  | nil =>
    intro st st' hu _ _ hcov hsp h
    rw [pollTasksLoop] at h
    obtain rfl := Option.some.inj h
    refine ⟨hu, hsp, ?_⟩
    intro r hr
    rcases hcov r hr with h1 | h1 | h1 | h1
    · exact Or.inl h1
    · exact Or.inr (Or.inl h1)
    · exact Or.inr (Or.inr h1)
    · exact absurd h1 (by simp)
  | cons t rest ih =>
    intro st st' hu hmem hdist hcov hsp h
    rw [pollTasksLoop] at h
    obtain ⟨hdt, hdrest⟩ := List.pairwise_cons.mp hdist
    by_cases hf : t.failed = true
    · rw [if_pos hf] at h
      refine ih st st' hu (fun u hu' => hmem u (List.mem_cons_of_mem _ hu'))
        hdrest ?_ hsp h
      intro r hr
      rcases hcov r hr with h1 | h1 | h1 | h1
      · exact Or.inl h1
      · exact Or.inr (Or.inl h1)
      · exact Or.inr (Or.inr (Or.inl h1))
      · rcases List.mem_cons.mp h1 with rfl | h2
        · exact Or.inl hf
        · exact Or.inr (Or.inr (Or.inr h2))
    · rw [if_neg hf] at h
      have ht : t ∈ st.db := hmem t (List.mem_cons_self t rest)
      have hall := uniq_hall t st.db hu ht
      have hcnt := uniq_count t st.db hu ht
      have hlift := pollOneTask_lift env ps t st hall hcnt
      cases hone : pollOneTask env ps t st with
      | none =>
        rw [hone] at h
        exact absurd h (by simp)
      | some st8 =>
        rw [hone] at h
        rw [hone] at hlift
        cases hrp : rowProc env ps t st.nextId with
        | none =>
          rw [hrp] at hlift
          simp at hlift
        | some s' =>
          rw [hrp] at hlift
          injection hlift with h8
          subst h8
          obtain ⟨e1, e2, hclm⟩ := rowProc_claimedUp env ps t st.nextId s' hrp
          refine ih (liftRow t.spId t.sectorNumber st s') st'
            (uniqKeys_upd st.db t s'.m hu e1 e2)
            (fun u hu' => mem_upd_of_nokey st.db t s'.m u
              (hmem u (List.mem_cons_of_mem _ hu')) (hdt u hu'))
            hdrest ?_ ?_ h
          · intro r' hr'
            rcases upd_mem st.db t s'.m r' hr' with rfl | ⟨hrdb, hrk⟩
            · exact Or.inr (Or.inr (Or.inl hclm))
            · rcases hcov r' hrdb with h1 | h1 | h1 | h1
              · exact Or.inl h1
              · exact Or.inr (Or.inl h1)
              · exact Or.inr (Or.inr (Or.inl h1))
              · rcases List.mem_cons.mp h1 with rfl | h2
                · exfalso
                  simp [keyMatch] at hrk
                · exact Or.inr (Or.inr (Or.inr h2))
          · intro r' hr'
            rcases upd_mem st.db t s'.m r' hr' with rfl | ⟨hrdb, _⟩
            · rw [e1]
              exact hsp t ht
            · exact hsp r' hrdb

theorem pollTasksLoop_second (env : ChainEnv) (ps : Pollers) :
    ∀ (tasks : List Row) (st st' : PollSt),
    UniqKeys st.db →
    (∀ u ∈ tasks, u ∈ st.db) →
    tasks.Pairwise (fun a b => keyMatch a.spId a.sectorNumber b = false) →
    (∀ u ∈ tasks, ¬ u.afterCommitMsgSuccess = true) →
    (∀ r ∈ st.db, 0 ≤ r.spId) →
    (∀ r ∈ st.db, r.failed = true ∨ r.afterCommitMsgSuccess = true ∨
      ClaimedUp ps r) →
    pollTasksLoop env ps tasks st = some st' →
    (∀ a ∈ st'.attempts, a ∈ st.attempts ∨ a.stage = Stage.porep) ∧
      ∀ e ∈ st'.errors, e ∈ st.errors := by
  intro tasks
  induction tasks with
  | nil =>
    intro st st' _ _ _ _ _ _ h
    rw [pollTasksLoop] at h
    obtain rfl := Option.some.inj h
    exact ⟨fun a ha => Or.inl ha, fun e he => he⟩
  | cons t rest ih =>
    intro st st' hu hmem hdist hacms hsp hcov h
    rw [pollTasksLoop] at h
    obtain ⟨hdt, hdrest⟩ := List.pairwise_cons.mp hdist
    by_cases hf : t.failed = true
    · rw [if_pos hf] at h
      exact ih st st' hu (fun u hu' => hmem u (List.mem_cons_of_mem _ hu'))
        hdrest (fun u hu' => hacms u (List.mem_cons_of_mem _ hu')) hsp hcov h
    · rw [if_neg hf] at h
      have hfb : t.failed = false := by
        cases hc : t.failed
        · rfl
        · exact absurd hc hf
      have ht : t ∈ st.db := hmem t (List.mem_cons_self t rest)
      have hclm : ClaimedUp ps t := by
        rcases hcov t ht with h1 | h1 | h1
        · exact absurd h1 hf
        · exact absurd h1 (hacms t (List.mem_cons_self t rest))
        · exact h1
      have hspt : ¬ t.spId < 0 := by
        have := hsp t ht
        omega
      have hall := uniq_hall t st.db hu ht
      have hcnt := uniq_count t st.db hu ht
      have hlift := pollOneTask_lift env ps t st hall hcnt
      obtain ⟨s', hrp, hattp, herrs⟩ :=
        rowProc_second env ps t st.nextId hclm hfb hspt
      cases hone : pollOneTask env ps t st with
      | none =>
        rw [hone] at h
        exact absurd h (by simp)
      | some st8 =>
        rw [hone] at h
        rw [hone, hrp] at hlift
        injection hlift with h8
        subst h8
        obtain ⟨e1, e2, _⟩ := rowProc_claimedUp env ps t st.nextId s' hrp
        have hsp2 : ∀ r' ∈ (liftRow t.spId t.sectorNumber st s').db,
            0 ≤ r'.spId := by
          intro r' hr'
          rcases upd_mem st.db t s'.m r' hr' with rfl | ⟨hrdb, _⟩
          · rw [e1]
            exact hsp t ht
          · exact hsp r' hrdb
        have hcov2 : ∀ r' ∈ (liftRow t.spId t.sectorNumber st s').db,
            r'.failed = true ∨ r'.afterCommitMsgSuccess = true ∨
              ClaimedUp ps r' := by
          intro r' hr'
          rcases upd_mem st.db t s'.m r' hr' with rfl | ⟨hrdb, _⟩
          · obtain ⟨_, _, hc⟩ := rowProc_claimedUp env ps t st.nextId s' hrp
            exact Or.inr (Or.inr hc)
          · exact hcov r' hrdb
        obtain ⟨hatt2, herr2⟩ := ih (liftRow t.spId t.sectorNumber st s') st'
          (uniqKeys_upd st.db t s'.m hu e1 e2)
          (fun u hu' => mem_upd_of_nokey st.db t s'.m u
            (hmem u (List.mem_cons_of_mem _ hu')) (hdt u hu'))
          hdrest
          (fun u hu' => hacms u (List.mem_cons_of_mem _ hu'))
          hsp2 hcov2 h
        refine ⟨?_, ?_⟩
        · intro a ha
          rcases hatt2 a ha with h1 | h1
          · have h1' : a ∈ st.attempts ++ s'.att := h1
            rcases List.mem_append.mp h1' with h2 | h2
            · exact Or.inl h2
            · exact Or.inr (hattp a h2)
          · exact Or.inr h1
        · intro e he
          have h1 : e ∈ st.errors ++ s'.errs := herr2 e he
          rw [herrs] at h1
          simpa using h1



/-- C2 (amended): under the schema's primary key (no two records share a
`(sp_id, sector_number)` key) and valid (nonnegative) provider ids, a
second `poll` tick immediately following a completed tick surfaces no
errors, and any claim attempt it makes is a PoRep claim — the one stage
whose gate the first tick's own message-A landing write can newly open.
No other stage is attempted twice. -/
theorem poll_second_run_porep_only (env : ChainEnv) (ps : Pollers)
    (db : List Row) (st1 st2 : PollSt)
    (hu : UniqKeys db) (hsp : ∀ r ∈ db, 0 ≤ r.spId)
    (h1 : poll env ps db = some st1)
    (h2 : poll env ps st1.db = some st2) :
    st2.errors = [] ∧ ∀ a ∈ st2.attempts, a.stage = Stage.porep := by
  rw [poll] at h1
  have hcovd : ∀ r ∈ db, r.failed = true ∨ r.afterCommitMsgSuccess = true ∨
      ClaimedUp ps r ∨
      r ∈ db.filter (fun r => r.afterCommitMsgSuccess != true) := by
    intro r hr
    by_cases hacms : r.afterCommitMsgSuccess = true
    · exact Or.inr (Or.inl hacms)
    · refine Or.inr (Or.inr (Or.inr ?_))
      refine List.mem_filter.mpr ⟨hr, ?_⟩
      simp [hacms]
  obtain ⟨hu1, hsp1, hcov1⟩ := pollTasksLoop_claims env ps
    (db.filter fun r => r.afterCommitMsgSuccess != true)
    ⟨db, 0, [], [], 0⟩ st1 hu
    (fun u hu' => List.mem_of_mem_filter hu')
    (List.Pairwise.sublist (List.filter_sublist db) hu) hcovd hsp h1
  rw [poll] at h2
  obtain ⟨hatt, herr⟩ := pollTasksLoop_second env ps
    (st1.db.filter fun r => r.afterCommitMsgSuccess != true)
    ⟨st1.db, 0, [], [], 0⟩ st2 hu1
    (fun u hu' => List.mem_of_mem_filter hu')
    (List.Pairwise.sublist (List.filter_sublist st1.db) hu1)
    (fun u hu' => by
      have hb := (List.mem_filter.mp hu').2
      simpa using hb)
    hsp1 hcov1 h2
  constructor
  · refine List.eq_nil_iff_forall_not_mem.mpr ?_
    intro e he
    have h0 : e ∈ ([] : List String) := herr e he
    simp at h0
  · intro a ha
    rcases hatt a ha with h1 | h1
    · have h0 : a ∈ ([] : List Attempt) := h1
      simp at h0
    · exact h1

/-- Witness for the amended C2 theorem: on the single mid-pipeline record
`c2Row` the first tick completes, the second tick completes with no errors
and only PoRep claim attempts. -/
theorem poll_second_run_porep_only_witness :
    UniqKeys [c2Row] ∧ (∀ r ∈ [c2Row], 0 ≤ r.spId) ∧
    poll c2Env c2Ps [c2Row] = some c2Out1 ∧
    poll c2Env c2Ps c2Out1.db = some c2Out2 ∧
    (c2Out2.errors = [] ∧ ∀ a ∈ c2Out2.attempts, a.stage = Stage.porep) :=
  ⟨by simp [UniqKeys], by decide, by decide, by decide,
    poll_second_run_porep_only c2Env c2Ps [c2Row] c2Out1 c2Out2
      (by simp [UniqKeys]) (by decide) (by decide) (by decide)⟩
